import Mathlib

/-!
Verification development for the viola-default-lints repository.

The development shallowly embeds the three similarity linters of the
repository (similar-functions, similar-types, duplicate-logic) as
executable Lean functions and proves properties of them.

Modelling conventions:
* JS numbers carrying similarity scores are modelled as rationals.
* JS RegExp values are modelled as boolean predicates on strings; the
  literal default patterns of the source are modelled as explicit
  predicate functions.
* The helper functions imported from the external package "@hiisi/viola"
  (compareIdentifiers, compareCodeBodies, normalizeCode, hashCodeBody,
  the percent formatting of Number.toFixed) are not part of this
  repository; the linter models are parameterized over them.  The one
  exception is jaccardSimilarity, which a claim names directly and which
  is therefore modelled from the spec.
* JS string order (operator <) is modelled by lexicographic comparison of
  the character sequences; Array.prototype.sort of the duplicate pairs is
  modelled by a sort with the same comparator (descending similarity).
* Issue records keep the fields the claims are about: the machine
  readable code string, the primary location, the human readable message,
  the related locations, the similarity score that the source embeds in
  the issue context, and the two entity names carried by the context
  object.  Display-only payload (suggestion text, metric breakdowns,
  formatted signatures) is omitted.
-/

namespace Viola

/-- Source location of an extracted entity: file path and line number. -/
structure Loc where
  file : String
  line : Nat
deriving DecidableEq, Repr

/-- A function parameter as extracted by the host runtime.  The source type
is a name with an optional declared type string; none models the absent
(undefined) type annotation. -/
structure Param where
  name : String
  type : Option String := none
deriving DecidableEq, Repr

/-- An extracted function: name, location, parameters, raw body text and the
optional precomputed normalized body and body hash supplied by the host. -/
structure FunctionInfo where
  name : String
  location : Loc
  params : List Param := []
  body : String := ""
  normalizedBody : Option String := none
  bodyHash : Option String := none
deriving DecidableEq, Repr

/-- A field of an extracted type or interface: name and declared type. -/
structure TypeField where
  name : String
  type : String
deriving DecidableEq, Repr

/-- An extracted type or interface: name, location and field list. -/
structure TypeInfo where
  name : String
  location : Loc
  fields : List TypeField := []
deriving DecidableEq, Repr

/-- One file of the codebase snapshot: path and contained functions, as
consumed by the duplicate-logic linter. -/
structure FileEntry where
  path : String
  functions : List FunctionInfo := []
deriving DecidableEq, Repr

/-- Similarity level vocabulary of the body comparator. -/
inductive SimLevel where
  | low
  | medium
  | high
  | exact
deriving DecidableEq, Repr

/-- An emitted issue, with the fields the claims are about.  The score field
is the similarity value the source stores in the issue context (the name
similarity for similar-name issues, the parameter similarity for the
same-name branch of similar-functions, the combined field similarity for
type issues, and the body similarity for duplicate-logic).  name1 and
name2 are the two entity identifiers carried by the context object. -/
structure Issue where
  code : String
  location : Loc
  message : String
  relatedLocations : List Loc
  score : Rat
  name1 : String
  name2 : String
deriving DecidableEq, Repr

/-- Number of lines of a body string.  The source computes
body.split("\n").length; for the one-character separator this equals one
plus the number of newline characters. -/
def lineCount (s : String) : Nat := s.data.countP (fun c => c == '\n') + 1

/-- Lexicographic comparison of character sequences, modelling the JS
string comparison operator. -/
def charListLt : List Char → List Char → Bool
  | [], [] => false
  | [], _ :: _ => true
  | _ :: _, [] => false
  | a :: xs, b :: ys => if a < b then true else if b < a then false else charListLt xs ys

/-- JS string operator < on two strings. -/
def jsLt (a b : String) : Bool := charListLt a.data b.data

/-- Remove a literal sequence from the front of a list, if present. -/
def dropLit : List Char → List Char → Option (List Char)
  | [], rest => some rest
  | _ :: _, [] => none
  | p :: ps, c :: cs => if p = c then dropLit ps cs else none

/-- Model of a source regex of the shape caret-literal-uppercase: the string
starts with the given literal followed by an uppercase letter. -/
def startsUpperAfter (lit : String) (s : String) : Bool :=
  match dropLit lit.data s.data with
  | some (c :: _) => c.isUpper
  | _ => false

/-- Model of a source regex of the shape literal-dollar: the string ends with
the given literal. -/
def endsLit (lit : String) (s : String) : Bool :=
  (dropLit lit.data.reverse s.data.reverse).isSome

/-- Deduplicate a list keeping first occurrences, as iterating a JS Set
built from the list does; the extra argument carries the names already
seen. -/
def firstDedupAux : List String → List String → List String
  | [], _ => []
  | a :: rest, seenNames =>
      if a ∈ seenNames then firstDedupAux rest seenNames
      else a :: firstDedupAux rest (a :: seenNames)

/-- Deduplicate a list keeping first occurrences. -/
def firstDedup (l : List String) : List String := firstDedupAux l []

/-- Decidable check that the first character list is a prefix of the second. -/
def segAt : List Char → List Char → Bool
  | [], _ => true
  | _ :: _, [] => false
  | a :: xs, b :: ys => a == b && segAt xs ys

/-- Decidable check that the first character list occurs inside the second. -/
def hasSeg (needle : List Char) : List Char → Bool
  | [] => segAt needle []
  | c :: rest => segAt needle (c :: rest) || hasSeg needle rest

/-- Decidable substring check on strings. -/
def strHasSeg (needle hay : String) : Bool := hasSeg needle.data hay.data

/-- JS truthiness of an optional type string: undefined and the empty string
are falsy. -/
def truthyStr : Option String → Bool
  | none => false
  | some s => s != ""

/-- Options of the similar-functions linter with the source defaults.  The
regex list is modelled as a predicate list. -/
def sfDefaultIgnorePatterns : List (String → Bool) :=
  [startsUpperAfter "handle", startsUpperAfter "on", startsUpperAfter "get",
   startsUpperAfter "set", startsUpperAfter "is", startsUpperAfter "has"]

/-- Resolved options of the similar-functions linter; the field defaults are
the DEFAULT_OPTIONS of the source. -/
structure SFOptions where
  minSimilarity : Rat := 7/10
  warningThreshold : Rat := 7/10
  errorThreshold : Rat := 17/20
  minFunctionLines : Nat := 3
  minNameLength : Nat := 3
  ignorePatterns : List (String → Bool) := sfDefaultIgnorePatterns
  ignoreFunctions : List String := []

/-- Ignore check of similar-functions and similar-types: the explicit name
list is consulted first, then the patterns. -/
def shouldIgnore (name : String) (patterns : List (String → Bool)) (explicitNames : List String) : Bool :=
  if name ∈ explicitNames then true
  else patterns.any (fun p => p name)

/-- Positional parameter match of compareParams: both sides declare the same
truthy type, or neither side declares a truthy type and the identifier
similarity of the names is above 0.8. -/
def paramPosMatch (cmpIds : String → String → Rat) (a b : Param) : Bool :=
  if truthyStr a.type && truthyStr b.type && (a.type == b.type) then true
  else if !truthyStr a.type && !truthyStr b.type then decide (4/5 < cmpIds a.name b.name)
  else false

/-- compareParams of similar-functions: 1 for two empty lists, 0 for a length
mismatch, otherwise matched positions over total positions. -/
def compareParams (cmpIds : String → String → Rat) (paramsA paramsB : List Param) : Rat :=
  if paramsA.length = 0 ∧ paramsB.length = 0 then 1
  else if paramsA.length ≠ paramsB.length then 0
  else (((paramsA.zip paramsB).countP (fun q => paramPosMatch cmpIds q.1 q.2) : Nat) : Rat) / (paramsA.length : Rat)

/-- Candidate filter of the similar-functions lint pass: truthy name,
minimum name length, not ignored, minimum body line count. -/
def sfEligible (opts : SFOptions) (f : FunctionInfo) : Bool :=
  if f.name = "" then false
  else if f.name.length < opts.minNameLength then false
  else if shouldIgnore f.name opts.ignorePatterns opts.ignoreFunctions then false
  else if lineCount f.body < opts.minFunctionLines then false
  else true

/-- The file:line:name component of the similar-functions pair key. -/
def sfEntityKey (f : FunctionInfo) : String :=
  f.location.file ++ ":" ++ toString f.location.line ++ ":" ++ f.name

/-- Pair key of similar-functions: the two entity keys, sorted, joined. -/
def sfPairKey (a b : FunctionInfo) : String :=
  let k1 := sfEntityKey a
  let k2 := sfEntityKey b
  if jsLt k2 k1 then k2 ++ "||" ++ k1 else k1 ++ "||" ++ k2

/-- checkSameNameFunctions of similar-functions: parameter similarity 1
yields the duplicate-function issue, anything else the
same-name-different-params issue. -/
def sfSameNameIssue (cmpIds : String → String → Rat) (fA fB : FunctionInfo) : Issue :=
  let paramSimilarity := compareParams cmpIds fA.params fB.params
  if paramSimilarity = 1 then
    { code := "similar-functions/duplicate-function"
      location := fA.location
      message := "Function \"" ++ fA.name ++ "\" exists in multiple files with identical signature. This is likely duplicate code that should be consolidated."
      relatedLocations := [fB.location]
      score := paramSimilarity
      name1 := fA.name
      name2 := fB.name }
  else
    { code := "similar-functions/same-name-different-params"
      location := fA.location
      message := "Function \"" ++ fA.name ++ "\" exists in multiple files with DIFFERENT signatures. This is confusing and error-prone."
      relatedLocations := [fB.location]
      score := paramSimilarity
      name1 := fA.name
      name2 := fB.name }

/-- checkPair of similar-functions: the same-name branch ignores the
thresholds entirely; otherwise the name similarity is classified against
the minimum, error and warning thresholds. -/
def sfCheckPair (cmpIds : String → String → Rat) (fmtPct : Rat → String) (opts : SFOptions) (fA fB : FunctionInfo) : Option Issue :=
  let similarity := cmpIds fA.name fB.name
  if fA.name = fB.name then some (sfSameNameIssue cmpIds fA fB)
  else if similarity < opts.minSimilarity then none
  else
    let isHigh := decide (opts.errorThreshold ≤ similarity)
    let isMedium := decide (opts.warningThreshold ≤ similarity)
    if !isHigh && !isMedium then none
    else if isHigh then
      some { code := "similar-functions/similar-name-high"
             location := fA.location
             message := "Function \"" ++ fA.name ++ "\" is very similar to \"" ++ fB.name ++ "\" (" ++ fmtPct similarity ++ "% match). This likely indicates duplicate code that should be consolidated."
             relatedLocations := [fB.location]
             score := similarity
             name1 := fA.name
             name2 := fB.name }
    else
      some { code := "similar-functions/similar-name-medium"
             location := fA.location
             message := "Function \"" ++ fA.name ++ "\" has similar name to \"" ++ fB.name ++ "\" (" ++ fmtPct similarity ++ "% match). Review to ensure they serve distinct purposes."
             relatedLocations := [fB.location]
             score := similarity
             name1 := fA.name
             name2 := fB.name }

/-- One iteration of the inner pair loop of the similar-functions lint:
record the pair key, apply the same-file different-name skip, then run
checkPair.  The state is the checked key set and the issue accumulator. -/
def sfPairStep (cmpIds : String → String → Rat) (fmtPct : Rat → String) (opts : SFOptions) (fA fB : FunctionInfo) (st : List String × List Issue) : List String × List Issue :=
  let key := sfPairKey fA fB
  if key ∈ st.1 then st
  else
    let checked := key :: st.1
    if fA.location.file = fB.location.file ∧ fA.name ≠ fB.name then (checked, st.2)
    else
      match sfCheckPair cmpIds fmtPct opts fA fB with
      | some iss => (checked, st.2 ++ [iss])
      | none => (checked, st.2)

/-- Inner pair loop of similar-functions: the fixed first entity against
every later entity. -/
def sfInner (cmpIds : String → String → Rat) (fmtPct : Rat → String) (opts : SFOptions) (fA : FunctionInfo) : List FunctionInfo → List String × List Issue → List String × List Issue
  | [], st => st
  | fB :: rest, st => sfInner cmpIds fmtPct opts fA rest (sfPairStep cmpIds fmtPct opts fA fB st)

/-- Outer pair loop of similar-functions over all ordered index pairs. -/
def sfOuter (cmpIds : String → String → Rat) (fmtPct : Rat → String) (opts : SFOptions) : List FunctionInfo → List String × List Issue → List Issue
  | [], st => st.2
  | fA :: rest, st => sfOuter cmpIds fmtPct opts rest (sfInner cmpIds fmtPct opts fA rest st)

/-- The similar-functions lint pass: filter the candidates, then compare all
pairs in iteration order.  cmpIds is the external identifier similarity
scorer, fmtPct the external percent formatter. -/
def sfLint (cmpIds : String → String → Rat) (fmtPct : Rat → String) (allFunctions : List FunctionInfo) (opts : SFOptions) : List Issue :=
  sfOuter cmpIds fmtPct opts (allFunctions.filter (sfEligible opts)) ([], [])

/-- Modelled from the spec: jaccardSimilarity is imported from the external
package and is not part of this repository; the spec glossary defines the
Jaccard index as intersection size over union size of two sets. -/
def jaccardSimilarity (a b : Finset String) : Rat :=
  ((a ∩ b).card : Rat) / ((a ∪ b).card : Rat)

/-- Result record of compareFields. -/
structure FieldCmp where
  nameSimilarity : Rat
  typeSimilarity : Rat
  combined : Rat
deriving DecidableEq, Repr

/-- The type agreement test for one common field name: the first field of
that name on each side carries an identical declared type string. -/
def typesMatchAt (fieldsA fieldsB : List TypeField) (n : String) : Bool :=
  match fieldsA.find? (fun f => f.name == n), fieldsB.find? (fun f => f.name == n) with
  | some fa, some fb => fa.type == fb.type
  | _, _ => false

/-- compareFields of similar-types: all ones when both field lists are
empty, all zeros when exactly one is, otherwise the Jaccard name
similarity, the type-match fraction over the common names, and the
weighted combination. -/
def compareFields (fieldsA fieldsB : List TypeField) : FieldCmp :=
  if fieldsA.length = 0 ∧ fieldsB.length = 0 then ⟨1, 1, 1⟩
  else if fieldsA.length = 0 ∨ fieldsB.length = 0 then ⟨0, 0, 0⟩
  else
    let namesA := (fieldsA.map (fun f => f.name)).toFinset
    let namesB := (fieldsB.map (fun f => f.name)).toFinset
    let nameSimilarity := jaccardSimilarity namesA namesB
    let commonNames := (firstDedup (fieldsA.map (fun f => f.name))).filter (fun n => decide (n ∈ namesB))
    let typeMatchCount := commonNames.countP (typesMatchAt fieldsA fieldsB)
    let typeSimilarity : Rat :=
      if 0 < commonNames.length then (typeMatchCount : Rat) / (commonNames.length : Rat) else 0
    ⟨nameSimilarity, typeSimilarity, nameSimilarity * (6/10) + typeSimilarity * (4/10)⟩

/-- Resolved options of the similar-types linter; the field defaults are the
DEFAULT_OPTIONS of the source (the default ignore pattern list is empty). -/
structure STOptions where
  minSimilarity : Rat := 7/10
  warningThreshold : Rat := 7/10
  errorThreshold : Rat := 17/20
  minFieldCount : Nat := 2
  minNameLength : Nat := 3
  ignorePatterns : List (String → Bool) := []
  ignoreTypes : List String := []
  checkFieldStructure : Bool := true
  fieldSimilarityThreshold : Rat := 8/10

/-- Candidate filter of the similar-types lint pass: truthy name, minimum
name length, not ignored, minimum field count. -/
def stEligible (opts : STOptions) (t : TypeInfo) : Bool :=
  if t.name = "" then false
  else if t.name.length < opts.minNameLength then false
  else if shouldIgnore t.name opts.ignorePatterns opts.ignoreTypes then false
  else if t.fields.length < opts.minFieldCount then false
  else true

/-- The file:line:name component of the similar-types pair key. -/
def stEntityKey (t : TypeInfo) : String :=
  t.location.file ++ ":" ++ toString t.location.line ++ ":" ++ t.name

/-- Pair key of the similar-types name pass. -/
def stPairKey (a b : TypeInfo) : String :=
  let k1 := stEntityKey a
  let k2 := stEntityKey b
  if jsLt k2 k1 then k2 ++ "||" ++ k1 else k1 ++ "||" ++ k2

/-- checkSameNameTypes of similar-types: a combined field similarity above
0.9 yields the duplicate-type issue, anything else the
same-name-different-structure issue. -/
def stSameNameIssue (fmtPct : Rat → String) (tA tB : TypeInfo) : Issue :=
  let fieldComparison := compareFields tA.fields tB.fields
  if 9/10 < fieldComparison.combined then
    { code := "duplicate-type"
      location := tA.location
      message := "Type \"" ++ tA.name ++ "\" exists in multiple files with nearly identical structure (" ++ fmtPct fieldComparison.combined ++ "% match). This is duplicate code that should be consolidated."
      relatedLocations := [tB.location]
      score := fieldComparison.combined
      name1 := tA.name
      name2 := tB.name }
  else
    { code := "same-name-different-structure"
      location := tA.location
      message := "Type \"" ++ tA.name ++ "\" exists in multiple files with DIFFERENT structures. This is confusing and error-prone."
      relatedLocations := [tB.location]
      score := fieldComparison.combined
      name1 := tA.name
      name2 := tB.name }

/-- checkPair of similar-types: the same-name branch ignores the thresholds
entirely; otherwise the name similarity is classified against the
minimum, error and warning thresholds. -/
def stCheckPair (cmpIds : String → String → Rat) (fmtPct : Rat → String) (opts : STOptions) (tA tB : TypeInfo) : Option Issue :=
  let similarity := cmpIds tA.name tB.name
  if tA.name = tB.name then some (stSameNameIssue fmtPct tA tB)
  else if similarity < opts.minSimilarity then none
  else
    let isError := decide (opts.errorThreshold ≤ similarity)
    let isWarning := decide (opts.warningThreshold ≤ similarity)
    if !isError && !isWarning then none
    else if isError then
      some { code := "similar-name-high"
             location := tA.location
             message := "Type \"" ++ tA.name ++ "\" is very similar to \"" ++ tB.name ++ "\" (" ++ fmtPct similarity ++ "% match). This likely indicates duplicate types that should be consolidated."
             relatedLocations := [tB.location]
             score := similarity
             name1 := tA.name
             name2 := tB.name }
    else
      some { code := "similar-name-medium"
             location := tA.location
             message := "Type \"" ++ tA.name ++ "\" has similar name to \"" ++ tB.name ++ "\" (" ++ fmtPct similarity ++ "% match). Review to ensure they serve distinct purposes."
             relatedLocations := [tB.location]
             score := similarity
             name1 := tA.name
             name2 := tB.name }

/-- One iteration of the inner pair loop of the similar-types name pass. -/
def stPairStep (cmpIds : String → String → Rat) (fmtPct : Rat → String) (opts : STOptions) (tA tB : TypeInfo) (st : List String × List Issue) : List String × List Issue :=
  let key := stPairKey tA tB
  if key ∈ st.1 then st
  else
    let checked := key :: st.1
    if tA.location.file = tB.location.file ∧ tA.name ≠ tB.name then (checked, st.2)
    else
      match stCheckPair cmpIds fmtPct opts tA tB with
      | some iss => (checked, st.2 ++ [iss])
      | none => (checked, st.2)

/-- Inner pair loop of the similar-types name pass. -/
def stInner (cmpIds : String → String → Rat) (fmtPct : Rat → String) (opts : STOptions) (tA : TypeInfo) : List TypeInfo → List String × List Issue → List String × List Issue
  | [], st => st
  | tB :: rest, st => stInner cmpIds fmtPct opts tA rest (stPairStep cmpIds fmtPct opts tA tB st)

/-- Outer pair loop of the similar-types name pass. -/
def stOuter (cmpIds : String → String → Rat) (fmtPct : Rat → String) (opts : STOptions) : List TypeInfo → List String × List Issue → List Issue
  | [], st => st.2
  | tA :: rest, st => stOuter cmpIds fmtPct opts rest (stInner cmpIds fmtPct opts tA rest st)

/-- Pair key of the structural pass of similar-types, built from file and
name only. -/
def stStructPairKey (a b : TypeInfo) : String :=
  let k1 := a.location.file ++ ":" ++ a.name
  let k2 := b.location.file ++ ":" ++ b.name
  if jsLt k2 k1 then k2 ++ "||" ++ k1 else k1 ++ "||" ++ k2

/-- One iteration of the structural pass of similar-types: skip same names,
skip pairs whose name similarity exceeds 0.5, dedup by pair key, then
report pairs whose combined field similarity reaches the structural
threshold. -/
def stStructStep (cmpIds : String → String → Rat) (fmtPct : Rat → String) (opts : STOptions) (tA tB : TypeInfo) (st : List String × List Issue) : List String × List Issue :=
  if tA.name = tB.name then st
  else if 1/2 < cmpIds tA.name tB.name then st
  else
    let key := stStructPairKey tA tB
    if key ∈ st.1 then st
    else
      let checked := key :: st.1
      let fieldComparison := compareFields tA.fields tB.fields
      if opts.fieldSimilarityThreshold ≤ fieldComparison.combined then
        (checked, st.2 ++ [{
          code := "similar-structure"
          location := tA.location
          message := "Types \"" ++ tA.name ++ "\" and \"" ++ tB.name ++ "\" have very similar field structures (" ++ fmtPct fieldComparison.combined ++ "% match) but different names. Consider consolidating or creating a base type."
          relatedLocations := [tB.location]
          score := fieldComparison.combined
          name1 := tA.name
          name2 := tB.name }])
      else (checked, st.2)

/-- Inner pair loop of the structural pass. -/
def stStructInner (cmpIds : String → String → Rat) (fmtPct : Rat → String) (opts : STOptions) (tA : TypeInfo) : List TypeInfo → List String × List Issue → List String × List Issue
  | [], st => st
  | tB :: rest, st => stStructInner cmpIds fmtPct opts tA rest (stStructStep cmpIds fmtPct opts tA tB st)

/-- Outer pair loop of the structural pass. -/
def stStructOuter (cmpIds : String → String → Rat) (fmtPct : Rat → String) (opts : STOptions) : List TypeInfo → List String × List Issue → List Issue
  | [], st => st.2
  | tA :: rest, st => stStructOuter cmpIds fmtPct opts rest (stStructInner cmpIds fmtPct opts tA rest st)

/-- checkFieldStructures of similar-types: restrict to types with enough
fields, then run the structural pair loop. -/
def stCheckFieldStructures (cmpIds : String → String → Rat) (fmtPct : Rat → String) (opts : STOptions) (types : List TypeInfo) : List Issue :=
  let typesWithFields := types.filter (fun t => decide (opts.minFieldCount ≤ t.fields.length))
  stStructOuter cmpIds fmtPct opts typesWithFields ([], [])

/-- The similar-types lint pass: filter the candidates, run the name pass
over all pairs in iteration order, then append the structural pass when
enabled. -/
def stLint (cmpIds : String → String → Rat) (fmtPct : Rat → String) (allTypes : List TypeInfo) (opts : STOptions) : List Issue :=
  let types := allTypes.filter (stEligible opts)
  let nameIssues := stOuter cmpIds fmtPct opts types ([], [])
  if opts.checkFieldStructure then nameIssues ++ stCheckFieldStructures cmpIds fmtPct opts types
  else nameIssues

/-- Default file exclusion patterns of the duplicate-logic linter: test and
spec files. -/
def dlDefaultIgnoreFilePatterns : List (String → Bool) :=
  [endsLit ".test.ts", endsLit ".spec.ts", endsLit "_test.ts"]

/-- Resolved options of the duplicate-logic linter; the field defaults are
the DEFAULT_OPTIONS of the source. -/
structure DLOptions where
  similarityThreshold : Rat := 17/20
  minBodyLength : Nat := 50
  minBodyLines : Nat := 3
  crossFile : Bool := true
  differentNamesOnly : Bool := false
  ignoreFunctionPatterns : List (String → Bool) := []
  ignoreFunctions : List String := []
  ignoreFilePatterns : List (String → Bool) := dlDefaultIgnoreFilePatterns
  maxPairs : Nat := 50
  errorOnExact : Bool := true

/-- The external helpers the duplicate-logic linter imports from the host
package: body normalization, body hashing and body comparison (similarity
score plus level). -/
structure DLExtern where
  normalizeCode : String → String
  hashCodeBody : String → String
  compareCodeBodies : String → String → Rat × SimLevel

/-- A candidate function with its precomputed normalized body and hash. -/
structure FunctionWithMeta where
  fn : FunctionInfo
  normalized : String
  hash : String
deriving DecidableEq, Repr

/-- A detected duplicate pair. -/
structure DuplicatePair where
  func1 : FunctionWithMeta
  func2 : FunctionWithMeta
  similarity : Rat
  level : SimLevel
  isExact : Bool
deriving DecidableEq, Repr

/-- State threaded through findDuplicates: the collected pairs and the seen
pair keys. -/
structure DLState where
  pairs : List DuplicatePair
  seenPairs : List String
deriving DecidableEq, Repr

/-- JS or-else on an optional string: undefined and the empty string fall
back to the default. -/
def strOrElse : Option String → String → String
  | some s, d => if s = "" then d else s
  | none, d => d

/-- shouldCheck of duplicate-logic: skip explicitly ignored truthy names,
names matching an ignore pattern, too-short bodies and bodies with too
few lines. -/
def shouldCheckDL (opts : DLOptions) (f : FunctionInfo) : Bool :=
  if f.name ≠ "" ∧ f.name ∈ opts.ignoreFunctions then false
  else if f.name ≠ "" ∧ opts.ignoreFunctionPatterns.any (fun p => p f.name) then false
  else if f.body.length < opts.minBodyLength then false
  else if lineCount f.body < opts.minBodyLines then false
  else true

/-- prepareFunctions of duplicate-logic: drop excluded files, filter the
functions, and precompute normalized body and hash, trusting the host
supplied fields when truthy. -/
def prepareFunctions (ext : DLExtern) (files : List FileEntry) (opts : DLOptions) : List FunctionWithMeta :=
  (files.filter (fun file => !opts.ignoreFilePatterns.any (fun p => p file.path))).flatMap
    (fun file => (file.functions.filter (shouldCheckDL opts)).map (fun f =>
      let normalized := strOrElse f.normalizedBody (ext.normalizeCode f.body)
      { fn := f, normalized := normalized, hash := strOrElse f.bodyHash (ext.hashCodeBody normalized) }))

/-- The file:line component of the duplicate-logic pair key. -/
def dlEntityKey (f : FunctionWithMeta) : String :=
  f.fn.location.file ++ ":" ++ toString f.fn.location.line

/-- pairKey of duplicate-logic: the two file:line keys in ascending string
order. -/
def dlPairKey (f1 f2 : FunctionWithMeta) : String :=
  let k1 := dlEntityKey f1
  let k2 := dlEntityKey f2
  if jsLt k1 k2 then k1 ++ "|" ++ k2 else k2 ++ "|" ++ k1

/-- shouldCompare of duplicate-logic: never the identical location, respect
the crossFile switch, respect the differentNamesOnly switch.  There is no
same-file skip here. -/
def shouldCompareDL (opts : DLOptions) (f1 f2 : FunctionWithMeta) : Bool :=
  if f1.fn.location.file = f2.fn.location.file ∧ f1.fn.location.line = f2.fn.location.line then false
  else if !opts.crossFile ∧ f1.fn.location.file ≠ f2.fn.location.file then false
  else if opts.differentNamesOnly ∧ f1.fn.name = f2.fn.name then false
  else true

/-- One pair of the exact pass: hash-grouped functions are confirmed as
exact duplicates with score 1, recording the pair key. -/
def exactStep (opts : DLOptions) (f1 f2 : FunctionWithMeta) (st : DLState) : DLState :=
  if !shouldCompareDL opts f1 f2 then st
  else
    let key := dlPairKey f1 f2
    if key ∈ st.seenPairs then st
    else { pairs := st.pairs ++ [⟨f1, f2, 1, SimLevel.exact, true⟩], seenPairs := key :: st.seenPairs }

/-- Inner loop of the exact pass within one hash group. -/
def exactInner (opts : DLOptions) (f1 : FunctionWithMeta) : List FunctionWithMeta → DLState → DLState
  | [], st => st
  | f2 :: rest, st => exactInner opts f1 rest (exactStep opts f1 f2 st)

/-- All ordered index pairs of one hash group. -/
def exactGroupPairs (opts : DLOptions) : List FunctionWithMeta → DLState → DLState
  | [], st => st
  | f :: rest, st => exactGroupPairs opts rest (exactInner opts f rest st)

/-- The exact pass of findDuplicates: group the candidates by hash in first
occurrence order (a JS Map preserves insertion order) and emit every pair
within each group of size at least two. -/
def exactPass (opts : DLOptions) (functions : List FunctionWithMeta) : DLState :=
  let groups := (firstDedup (functions.map (fun f => f.hash))).map
    (fun h => functions.filter (fun f => f.hash == h))
  groups.foldl (fun st g => if g.length < 2 then st else exactGroupPairs opts g st) ⟨[], []⟩

/-- One pair of the near-duplicate pass: skip non-comparable or already-seen
pairs, compare the normalized bodies, and record pairs reaching the
similarity threshold. -/
def nearStep (ext : DLExtern) (opts : DLOptions) (f1 f2 : FunctionWithMeta) (st : DLState) : DLState :=
  if !shouldCompareDL opts f1 f2 then st
  else
    let key := dlPairKey f1 f2
    if key ∈ st.seenPairs then st
    else
      let cmp := ext.compareCodeBodies f1.normalized f2.normalized
      if opts.similarityThreshold ≤ cmp.1 then
        { pairs := st.pairs ++ [⟨f1, f2, cmp.1, cmp.2, decide (99/100 ≤ cmp.1)⟩]
          seenPairs := key :: st.seenPairs }
      else st

/-- Inner loop of the near-duplicate pass, re-checking the pair cap before
every step as the source loop condition does. -/
def nearInner (ext : DLExtern) (opts : DLOptions) (f1 : FunctionWithMeta) : List FunctionWithMeta → DLState → DLState
  | [], st => st
  | f2 :: rest, st =>
      if opts.maxPairs ≤ st.pairs.length then st
      else nearInner ext opts f1 rest (nearStep ext opts f1 f2 st)

/-- Outer loop of the near-duplicate pass, re-checking the pair cap before
every iteration as the source loop condition does. -/
def nearOuter (ext : DLExtern) (opts : DLOptions) : List FunctionWithMeta → DLState → DLState
  | [], st => st
  | f1 :: rest, st =>
      if opts.maxPairs ≤ st.pairs.length then st
      else nearOuter ext opts rest (nearInner ext opts f1 rest st)

/-- The near-duplicate pass without the pair cap: the hypothetical unbounded
scan used to count the qualifying near-duplicate pairs of an input. -/
def nearInnerAll (ext : DLExtern) (opts : DLOptions) (f1 : FunctionWithMeta) : List FunctionWithMeta → DLState → DLState
  | [], st => st
  | f2 :: rest, st => nearInnerAll ext opts f1 rest (nearStep ext opts f1 f2 st)

/-- Outer loop of the uncapped near-duplicate scan. -/
def nearOuterAll (ext : DLExtern) (opts : DLOptions) : List FunctionWithMeta → DLState → DLState
  | [], st => st
  | f1 :: rest, st => nearOuterAll ext opts rest (nearInnerAll ext opts f1 rest st)

/-- Descending similarity order on duplicate pairs, the comparator of the
final sort. -/
def pairDescRel (a b : DuplicatePair) : Prop := b.similarity ≤ a.similarity

instance : DecidableRel pairDescRel :=
  fun a b => inferInstanceAs (Decidable (b.similarity ≤ a.similarity))

instance : IsTotal DuplicatePair pairDescRel :=
  ⟨fun a b => le_total b.similarity a.similarity⟩

instance : IsTrans DuplicatePair pairDescRel :=
  ⟨fun _ _ _ h1 h2 => le_trans h2 h1⟩

/-- findDuplicates of duplicate-logic: exact pass, capped near-duplicate
pass, then sort by descending similarity and truncate to the cap.  The
stable JS sort is modelled by a sort with the same comparator. -/
def findDuplicates (ext : DLExtern) (functions : List FunctionWithMeta) (opts : DLOptions) : List DuplicatePair :=
  let st0 := exactPass opts functions
  let st1 := nearOuter ext opts functions st0
  (List.insertionSort pairDescRel st1.pairs).take opts.maxPairs

/-- pairToIssue of duplicate-logic.  The displayed percentage is the rounded
similarity, anonymous functions display as "(anonymous)". -/
def pairToIssue (opts : DLOptions) (p : DuplicatePair) : Issue :=
  let display1 := if p.func1.fn.name = "" then "(anonymous)" else p.func1.fn.name
  let display2 := if p.func2.fn.name = "" then "(anonymous)" else p.func2.fn.name
  if p.isExact ∧ opts.errorOnExact then
    { code := "exact-duplicate"
      location := p.func1.fn.location
      message := "Function \"" ++ display1 ++ "\" is an exact duplicate of \"" ++ display2 ++ "\". Consider extracting to a shared function."
      relatedLocations := [p.func2.fn.location]
      score := p.similarity
      name1 := p.func1.fn.name
      name2 := p.func2.fn.name }
  else
    { code := "similar-implementation"
      location := p.func1.fn.location
      message := "Function \"" ++ display1 ++ "\" has " ++ toString (round (p.similarity * 100)) ++ "% similar implementation to \"" ++ display2 ++ "\". Consider consolidating."
      relatedLocations := [p.func2.fn.location]
      score := p.similarity
      name1 := p.func1.fn.name
      name2 := p.func2.fn.name }

/-- The duplicate-logic lint pass: prepare the candidates, return early on
fewer than two, then convert the found pairs to issues in order. -/
def dlLint (ext : DLExtern) (files : List FileEntry) (opts : DLOptions) : List Issue :=
  let functions := prepareFunctions ext files opts
  if functions.length < 2 then []
  else (findDuplicates ext functions opts).map (pairToIssue opts)

/-- The pair key of a recorded duplicate pair. -/
def dlKeyOf (p : DuplicatePair) : String := dlPairKey p.func1 p.func2

/-- Claim-side notion for the parameter comparison: a parameter declares a
type when the extracted type string is present and non-empty. -/
def declaresType (p : Param) : Bool :=
  match p.type with
  | none => false
  | some s => s != ""

/-- Claim-side positional match: both parameters declare the same non-empty
type, or neither declares a type and the name similarity exceeds 0.8. -/
def specParamMatch (cmpIds : String → String → Rat) (a b : Param) : Bool :=
  (declaresType a && declaresType b && (a.type == b.type)) ||
  (!declaresType a && !declaresType b && decide (4/5 < cmpIds a.name b.name))

/-- Claim-side statement of compareParams: 1 for two empty lists, 0 for a
length mismatch, otherwise matched positions over total positions. -/
def specCompareParams (cmpIds : String → String → Rat) (paramsA paramsB : List Param) : Rat :=
  if paramsA = [] ∧ paramsB = [] then 1
  else if paramsA.length ≠ paramsB.length then 0
  else (((paramsA.zip paramsB).countP (fun q => specParamMatch cmpIds q.1 q.2) : Nat) : Rat) / (paramsA.length : Rat)

/-- Claim-side statement of compareFields, phrased over finite sets: the
name similarity is the Jaccard index of the field-name sets, the type
similarity the fraction of common names with identical declared types, and
the combination weighs names 0.6 and types 0.4. -/
def specCompareFields (fieldsA fieldsB : List TypeField) : FieldCmp :=
  if fieldsA = [] ∧ fieldsB = [] then ⟨1, 1, 1⟩
  else if fieldsA = [] ∨ fieldsB = [] then ⟨0, 0, 0⟩
  else
    let namesA := (fieldsA.map (fun f => f.name)).toFinset
    let namesB := (fieldsB.map (fun f => f.name)).toFinset
    let common := namesA ∩ namesB
    let nameSimilarity := jaccardSimilarity namesA namesB
    let typeSimilarity : Rat :=
      if common = ∅ then 0
      else ((common.filter (fun n => typesMatchAt fieldsA fieldsB n = true)).card : Rat) / (common.card : Rat)
    ⟨nameSimilarity, typeSimilarity, (6/10) * nameSimilarity + (4/10) * typeSimilarity⟩

/-- A trivial identifier scorer used to instantiate the external parameter
in concrete scenarios: full score on equal names, zero otherwise.  It is
consistent with the spec contract for the scorer. -/
def cmpEq (a b : String) : Rat := if a = b then 1 else 0

/-- A trivial percent formatter used to instantiate the external display
parameter in concrete scenarios. -/
def fmtNone (_ : Rat) : String := ""

/-- Identifier scorer instantiation for the ordering scenario, using the
value the repository's own test fixtures document for the pair
processUserData / processUserDatas (about 0.72). -/
def cmpNames (a b : String) : Rat :=
  if a = b then 1
  else if (a = "processUserData" ∧ b = "processUserDatas") ∨ (a = "processUserDatas" ∧ b = "processUserData") then 18/25
  else 0

/-- Ordering scenario, function A: eligible, in its own file. -/
def ordFnA : FunctionInfo :=
  { name := "processUserData", location := ⟨"src/a.ts", 1⟩, body := "\x7b\nx\n\x7d" }

/-- Ordering scenario, function B: a near-miss name in a second file. -/
def ordFnB : FunctionInfo :=
  { name := "processUserDatas", location := ⟨"src/b.ts", 1⟩, body := "\x7b\nx\n\x7d" }

/-- Ordering scenario, function C: the same name as A in a third file. -/
def ordFnC : FunctionInfo :=
  { name := "processUserData", location := ⟨"src/c.ts", 5⟩, body := "\x7b\nx\n\x7d" }

/-- External helper instantiation for the duplicate-logic scenarios:
normalization and hashing are the identity, and distinct normalized bodies
score 0.9 at level high while identical ones are exact. -/
def extId : DLExtern :=
  { normalizeCode := fun s => s
    hashCodeBody := fun s => s
    compareCodeBodies := fun a b => if a = b then (1, SimLevel.exact) else (9/10, SimLevel.high) }

/-- Same-file scenario, first body: long enough to be eligible. -/
def sameFileBodyA : String :=
  "\x7b\n  const validated = validate(input);\n  return process(validated);\n\x7d"

/-- Same-file scenario, second body: long enough and distinct. -/
def sameFileBodyB : String :=
  "\x7b\n  const checked = validate(thing);\n  return transform(checked);\n\x7d"

/-- Same-file scenario, function A. -/
def sameFileFnA : FunctionInfo :=
  { name := "funcA", location := ⟨"src/app.ts", 1⟩, body := sameFileBodyA }

/-- Same-file scenario, function B: same file, different name and line. -/
def sameFileFnB : FunctionInfo :=
  { name := "funcB", location := ⟨"src/app.ts", 10⟩, body := sameFileBodyB }

/-- Same-file scenario codebase: both functions live in one file. -/
def sameFileFiles : List FileEntry := [⟨"src/app.ts", [sameFileFnA, sameFileFnB]⟩]

/-- Hash-group scenario: a body long enough to be eligible. -/
def hashBody : String :=
  "\x7b\n  const result = doSomething(input);\n  return result;\n\x7d"

/-- Hash-group scenario: a function with a precomputed hash shared by the
whole group. -/
def hashFn (file : String) (line : Nat) : FunctionInfo :=
  { name := "dupFn", location := ⟨file, line⟩, body := hashBody
    normalizedBody := some "normbody", bodyHash := some "h0" }

/-- Hash-group scenario codebase: three functions with identical body
hashes in three files. -/
def hashFiles : List FileEntry :=
  [⟨"src/a.ts", [hashFn "src/a.ts" 1]⟩,
   ⟨"src/b.ts", [hashFn "src/b.ts" 2]⟩,
   ⟨"src/c.ts", [hashFn "src/c.ts" 3]⟩]

/-- Cap scenario: four mutually near-duplicate bodies distinguished by a
tag. -/
def capBody (tag : String) : String :=
  "\x7b\n  const value = compute(input) + \"" ++ tag ++ "\";\n  return transform(value);\n\x7d"

/-- Cap scenario: one of four functions in one file. -/
def capFn (name : String) (line : Nat) (tag : String) : FunctionInfo :=
  { name := name, location := ⟨"src/m.ts", line⟩, body := capBody tag }

/-- Cap scenario codebase: four mutually near-duplicate functions. -/
def capFiles : List FileEntry :=
  [⟨"src/m.ts", [capFn "gOne" 1 "a", capFn "gTwo" 10 "b", capFn "gThree" 20 "c", capFn "gFour" 30 "d"]⟩]

/-- Cap scenario options: a pair cap of two. -/
def capOpts : DLOptions := { maxPairs := 2 }

/-- Identifier scorer instantiation for the similar-types gap scenario: the
two type names score 0.6, between the structural skip bound 0.5 and the
default minimum similarity 0.7. -/
def cmpGap (a b : String) : Rat :=
  if a = b then 1
  else if (a = "UserRecord" ∧ b = "OrderHolder") ∨ (a = "OrderHolder" ∧ b = "UserRecord") then 3/5
  else 0

/-- Gap scenario, type A: eligible, with two fields. -/
def gapTyA : TypeInfo :=
  { name := "UserRecord", location := ⟨"src/u.ts", 1⟩, fields := [⟨"a", "string"⟩, ⟨"b", "string"⟩] }

/-- Gap scenario, type B: an identically structured type in another file
whose name scores 0.6 against type A. -/
def gapTyB : TypeInfo :=
  { name := "OrderHolder", location := ⟨"src/o.ts", 1⟩, fields := [⟨"a", "string"⟩, ⟨"b", "string"⟩] }

/-- Same-name scenario for the functions branch: the shared signature. -/
def valFn (file : String) (line : Nat) (params : List Param) : FunctionInfo :=
  { name := "validate", location := ⟨file, line⟩, params := params, body := "\x7b\nx\n\x7d" }

/-- Same-name scenario for the types branch. -/
def valTy (file : String) (line : Nat) (fields : List TypeField) : TypeInfo :=
  { name := "Payload", location := ⟨file, line⟩, fields := fields }

/-- The lexicographic character comparison is asymmetric. -/
theorem charListLt_asymm : ∀ (x y : List Char), charListLt x y = true → charListLt y x = false := by
  intro x
  induction x with
  | nil =>
    intro y h
    cases y with
    | nil => simp [charListLt] at h
    | cons b ys => simp [charListLt]
  | cons a xs ih =>
    intro y h
    cases y with
    | nil => simp [charListLt] at h
    | cons b ys =>
      simp only [charListLt] at h ⊢
      by_cases hab : a < b
      · simp [hab, lt_asymm hab]
      · by_cases hba : b < a
        · simp [hab, hba] at h
        · simp [hab, hba] at h ⊢
          exact ih ys h

/-- Two lexicographically incomparable character lists are equal. -/
theorem charListLt_conn : ∀ (x y : List Char), charListLt x y = false → charListLt y x = false → x = y := by
  intro x
  induction x with
  | nil =>
    intro y h1 _
    cases y with
    | nil => rfl
    | cons b ys => simp [charListLt] at h1
  | cons a xs ih =>
    intro y h1 h2
    cases y with
    | nil => simp [charListLt] at h2
    | cons b ys =>
      simp only [charListLt] at h1 h2
      by_cases hab : a < b
      · simp [hab] at h1
      · by_cases hba : b < a
        · simp [hab, hba] at h2
        · simp [hab, hba] at h1 h2
          have hEq : a = b := le_antisymm (not_lt.mp hba) (not_lt.mp hab)
          rw [hEq, ih ys h1 h2]

/-- The modelled JS string order is asymmetric. -/
theorem jsLt_asymm (a b : String) (h : jsLt a b = true) : jsLt b a = false :=
  charListLt_asymm a.data b.data h

/-- Two strings incomparable in the modelled JS order are equal. -/
theorem jsLt_conn (a b : String) (h1 : jsLt a b = false) (h2 : jsLt b a = false) : a = b :=
  String.ext (charListLt_conn a.data b.data h1 h2)

/-- The duplicate-logic pair key does not depend on the argument order. -/
theorem dlPairKey_symm (f1 f2 : FunctionWithMeta) : dlPairKey f1 f2 = dlPairKey f2 f1 := by
  unfold dlPairKey
  by_cases h : jsLt (dlEntityKey f1) (dlEntityKey f2) = true
  · simp [h, jsLt_asymm _ _ h]
  · by_cases h2 : jsLt (dlEntityKey f2) (dlEntityKey f1) = true
    · simp [h, h2]
    · simp [h, h2, jsLt_conn (dlEntityKey f1) (dlEntityKey f2) (by simpa using h) (by simpa using h2)]

/-- The similar-functions pair key does not depend on the argument order. -/
theorem sfPairKey_symm (a b : FunctionInfo) : sfPairKey a b = sfPairKey b a := by
  unfold sfPairKey
  by_cases h : jsLt (sfEntityKey b) (sfEntityKey a) = true
  · simp [h, jsLt_asymm _ _ h]
  · by_cases h2 : jsLt (sfEntityKey a) (sfEntityKey b) = true
    · simp [h, h2]
    · simp [h, h2, jsLt_conn (sfEntityKey b) (sfEntityKey a) (by simpa using h) (by simpa using h2)]

/-- The similar-types pair key does not depend on the argument order. -/
theorem stPairKey_symm (a b : TypeInfo) : stPairKey a b = stPairKey b a := by
  unfold stPairKey
  by_cases h : jsLt (stEntityKey b) (stEntityKey a) = true
  · simp [h, jsLt_asymm _ _ h]
  · by_cases h2 : jsLt (stEntityKey a) (stEntityKey b) = true
    · simp [h, h2]
    · simp [h, h2, jsLt_conn (stEntityKey b) (stEntityKey a) (by simpa using h) (by simpa using h2)]

/-- A prefix match survives extending the haystack on the right. -/
theorem segAt_append (n : List Char) : ∀ (l y : List Char), segAt n l = true → segAt n (l ++ y) = true := by
  induction n with
  | nil => intro l y _; simp [segAt]
  | cons a xs ih =>
    intro l y h
    cases l with
    | nil => simp [segAt] at h
    | cons b ls =>
      simp only [segAt, Bool.and_eq_true] at h
      simp only [List.cons_append, segAt, Bool.and_eq_true]
      exact ⟨h.1, ih ls y h.2⟩

/-- The empty needle occurs in every haystack. -/
theorem hasSeg_nil (y : List Char) : hasSeg [] y = true := by
  cases y with
  | nil => simp [hasSeg, segAt]
  | cons c rest => simp [hasSeg, segAt]

/-- An occurrence survives extending the haystack on the right. -/
theorem hasSeg_append_right (n : List Char) : ∀ (l y : List Char), hasSeg n l = true → hasSeg n (l ++ y) = true := by
  intro l
  induction l with
  | nil =>
    intro y h
    cases n with
    | nil => simpa using hasSeg_nil y
    | cons a xs => simp [hasSeg, segAt] at h
  | cons c ls ih =>
    intro y h
    simp only [hasSeg, Bool.or_eq_true] at h
    simp only [List.cons_append, hasSeg, Bool.or_eq_true]
    rcases h with h | h
    · exact Or.inl (by simpa using segAt_append n (c :: ls) y h)
    · exact Or.inr (ih y h)

/-- An occurrence survives extending the haystack on the left. -/
theorem hasSeg_append_left (n : List Char) : ∀ (x l : List Char), hasSeg n l = true → hasSeg n (x ++ l) = true := by
  intro x
  induction x with
  | nil => intro l h; simpa using h
  | cons c xs ih =>
    intro l h
    simp only [List.cons_append, hasSeg, Bool.or_eq_true]
    exact Or.inr (ih l h)

/-- Membership in the dedup accumulator loop. -/
theorem mem_firstDedupAux : ∀ (l acc : List String) (x : String), x ∈ firstDedupAux l acc ↔ x ∈ l ∧ x ∉ acc := by
  intro l
  induction l with
  | nil => intro acc x; simp [firstDedupAux]
  | cons a rest ih =>
    intro acc x
    simp only [firstDedupAux]
    by_cases h : a ∈ acc
    · rw [if_pos h, ih]
      constructor
      · rintro ⟨hx, hacc⟩
        exact ⟨List.mem_cons_of_mem _ hx, hacc⟩
      · rintro ⟨hx, hacc⟩
        rcases List.mem_cons.mp hx with rfl | hx
        · exact absurd h hacc
        · exact ⟨hx, hacc⟩
    · rw [if_neg h]
      constructor
      · intro hx
        rcases List.mem_cons.mp hx with rfl | hx
        · exact ⟨List.mem_cons_self _ _, h⟩
        · rw [ih] at hx
          refine ⟨List.mem_cons_of_mem _ hx.1, ?_⟩
          intro hmem
          exact hx.2 (List.mem_cons_of_mem _ hmem)
      · rintro ⟨hx, hacc⟩
        rcases List.mem_cons.mp hx with rfl | hx
        · exact List.mem_cons_self _ _
        · by_cases hxa : x = a
          · subst hxa
            exact List.mem_cons_self _ _
          · refine List.mem_cons_of_mem _ ?_
            rw [ih]
            refine ⟨hx, ?_⟩
            intro hmem
            rcases List.mem_cons.mp hmem with h1 | h1
            · exact hxa h1
            · exact hacc h1

/-- The dedup accumulator loop produces a duplicate-free list. -/
theorem firstDedupAux_nodup : ∀ (l acc : List String), (firstDedupAux l acc).Nodup := by
  intro l
  induction l with
  | nil => intro acc; simp [firstDedupAux]
  | cons a rest ih =>
    intro acc
    simp only [firstDedupAux]
    by_cases h : a ∈ acc
    · rw [if_pos h]; exact ih acc
    · rw [if_neg h]
      refine List.nodup_cons.mpr ⟨?_, ih (a :: acc)⟩
      intro hmem
      exact ((mem_firstDedupAux rest (a :: acc) a).mp hmem).2 (List.mem_cons_self _ _)

/-- firstDedup produces a duplicate-free list. -/
theorem firstDedup_nodup (l : List String) : (firstDedup l).Nodup := firstDedupAux_nodup l []

/-- firstDedup preserves membership. -/
theorem mem_firstDedup (l : List String) (x : String) : x ∈ firstDedup l ↔ x ∈ l := by
  simp [firstDedup, mem_firstDedupAux]

/-- firstDedup preserves the underlying finite set. -/
theorem toFinset_firstDedup (l : List String) : (firstDedup l).toFinset = l.toFinset := by
  apply Finset.ext
  intro x
  simp [List.mem_toFinset, mem_firstDedup]

/-- On a duplicate-free list, counting by a predicate is the cardinality of
the filtered finite set. -/
theorem countP_eq_card_filter_toFinset {α : Type} [DecidableEq α] (p : α → Bool) : ∀ (l : List α), l.Nodup → l.countP p = (l.toFinset.filter (fun x => p x = true)).card := by
  intro l
  induction l with
  | nil => intro _; simp
  | cons a rest ih =>
    intro h
    obtain ⟨ha, hrest⟩ := List.nodup_cons.mp h
    rw [List.countP_cons, ih hrest]
    simp only [List.toFinset_cons]
    rw [Finset.filter_insert]
    by_cases hpa : p a = true
    · rw [if_pos hpa, if_pos hpa, Finset.card_insert_of_not_mem]
      intro hmem
      exact ha (List.mem_toFinset.mp (Finset.mem_of_mem_filter _ hmem))
    · rw [if_neg hpa, if_neg hpa, Nat.add_zero]

/-- The positional parameter match of the source equals the claim-side
match. -/
theorem paramPosMatch_eq_spec (cmpIds : String → String → Rat) (a b : Param) : paramPosMatch cmpIds a b = specParamMatch cmpIds a b := by
  have hd : ∀ p : Param, declaresType p = truthyStr p.type := by
    intro p
    cases h : p.type <;> simp [declaresType, truthyStr, h]
  unfold paramPosMatch specParamMatch
  rw [hd, hd]
  generalize truthyStr a.type = x
  generalize truthyStr b.type = y
  generalize (a.type == b.type) = e
  generalize (decide ((4:Rat)/5 < cmpIds a.name b.name)) = d
  cases x <;> cases y <;> cases e <;> cases d <;> simp

/-- C6: compareParams returns 1 when both parameter lists are empty, 0 when
the lengths differ, and otherwise the matched-position count over the
total positions, where a position matches exactly when both sides declare
the same non-empty type or neither declares a type and the identifier
similarity of the names is strictly above 0.8; a position where exactly
one side declares a type never matches.  The first conjunct equates the
source function with the claim-side restatement, the second conjunct is
the mixed-declaration case, and the last two conjuncts evaluate the stated
base cases. -/
theorem c6_compareParams :
    (∀ (cmpIds : String → String → Rat) (paramsA paramsB : List Param),
        compareParams cmpIds paramsA paramsB = specCompareParams cmpIds paramsA paramsB)
    ∧ (∀ (cmpIds : String → String → Rat) (a b : Param),
        declaresType a = true → declaresType b = false → paramPosMatch cmpIds a b = false)
    ∧ compareParams cmpEq [] [] = 1
    ∧ compareParams cmpEq [⟨"x", none⟩] [⟨"x", none⟩, ⟨"y", none⟩] = 0 := by
  refine ⟨?_, ?_, ?_, ?_⟩
  · intro cmpIds pa pb
    unfold compareParams specCompareParams
    simp only [List.length_eq_zero, paramPosMatch_eq_spec]
  · intro cmpIds a b h1 h2
    have hd : ∀ p : Param, declaresType p = truthyStr p.type := by
      intro p
      cases h : p.type <;> simp [declaresType, truthyStr, h]
    have ha : truthyStr a.type = true := by rw [← hd]; exact h1
    have hb : truthyStr b.type = false := by rw [← hd]; exact h2
    unfold paramPosMatch
    simp [ha, hb]
  · with_unfolding_all decide
  · with_unfolding_all decide

/-- C6 witness: the mixed-declaration conjunct applied at a concrete pair
with one declared and one undeclared type. -/
theorem c6_compareParams_witness :
    paramPosMatch cmpEq ⟨"count", some "number"⟩ ⟨"total", none⟩ = false :=
  c6_compareParams.2.1 cmpEq ⟨"count", some "number"⟩ ⟨"total", none⟩ (by decide) (by decide)

/-- C7: compareFields returns all ones when both field lists are empty and
all zeros when exactly one is; otherwise the name similarity is the
Jaccard index of the field-name sets, the type similarity is the fraction
of common field names whose declared type strings are identical (zero
when there are no common names), and the combination weighs the name
similarity 0.6 and the type similarity 0.4.  Consequently two one-field
lists with the same name and type combine to 1 and two one-field lists
with disjoint names combine to 0. -/
theorem c7_compareFields :
    (∀ (fieldsA fieldsB : List TypeField), compareFields fieldsA fieldsB = specCompareFields fieldsA fieldsB)
    ∧ (compareFields [⟨"id", "string"⟩] [⟨"id", "string"⟩]).combined = 1
    ∧ (compareFields [⟨"id", "string"⟩] [⟨"name", "string"⟩]).combined = 0 := by
  refine ⟨?_, by with_unfolding_all decide, by with_unfolding_all decide⟩
  intro fa fb
  unfold compareFields specCompareFields
  simp only [List.length_eq_zero]
  set namesA := (fa.map (fun f => f.name)).toFinset with hA
  set namesB := (fb.map (fun f => f.name)).toFinset with hB
  set commonNames := (firstDedup (fa.map (fun f => f.name))).filter (fun n => decide (n ∈ namesB)) with hC
  have hnd : commonNames.Nodup := (firstDedup_nodup _).filter _
  have hts : commonNames.toFinset = namesA ∩ namesB := by
    rw [hC, List.toFinset_filter]
    simp only [decide_eq_true_eq]
    rw [toFinset_firstDedup]
    exact Finset.filter_mem_eq_inter
  have hlen : commonNames.length = (namesA ∩ namesB).card := by
    rw [← hts, List.toFinset_card_of_nodup hnd]
  have hcount : commonNames.countP (typesMatchAt fa fb) = ((namesA ∩ namesB).filter (fun n => typesMatchAt fa fb n = true)).card := by
    rw [countP_eq_card_filter_toFinset _ _ hnd, hts]
  split_ifs with h1 h2 h3 h4 h5
  · rfl
  · rfl
  · exfalso
    rw [hlen, h4] at h3
    simp at h3
  · rw [hcount, hlen]
    simp only [FieldCmp.mk.injEq, true_and]
    ring
  · simp only [FieldCmp.mk.injEq, true_and]
    ring
  · exfalso
    apply h5
    have hzero : commonNames.length = 0 := Nat.eq_zero_of_not_pos h3
    rw [hlen] at hzero
    exact Finset.card_eq_zero.mp hzero

/-- The score an issue of duplicate-logic carries is the similarity of its
pair. -/
theorem pairToIssue_score (opts : DLOptions) (p : DuplicatePair) : (pairToIssue opts p).score = p.similarity := by
  unfold pairToIssue
  split_ifs <;> rfl

/-- C1 counterexample: a concrete similar-functions invocation whose issue
list is not sorted by descending score.  The three functions produce a
medium similar-name issue (score 0.72, the value the repository's tests
document for this name pair), then a duplicate-function issue (parameter
similarity 1), then another medium issue, so the list [0.72, 1, 0.72] is
not descending; similar-functions performs no sorting. -/
theorem c1_counterexample :
    ((sfLint cmpNames fmtNone [ordFnA, ordFnB, ordFnC] {}).map (fun i => i.score) = [18/25, 1, 18/25])
    ∧ ¬ (sfLint cmpNames fmtNone [ordFnA, ordFnB, ordFnC] {}).Pairwise (fun i j => j.score ≤ i.score) := by
  with_unfolding_all decide

/-- C1 amended: only the duplicate-logic linter sorts its result by
descending similarity; for every invocation its issue list is sorted by
descending score (similar-functions and similar-types return issues in
pair iteration order, as the counterexample shows). -/
theorem c1_duplicate_logic_sorted (ext : DLExtern) (files : List FileEntry) (opts : DLOptions) :
    (dlLint ext files opts).Pairwise (fun i j => j.score ≤ i.score) := by
  simp only [dlLint]
  by_cases h : (prepareFunctions ext files opts).length < 2
  · simp [h]
  · rw [if_neg h, List.pairwise_map]
    have hs : List.Pairwise pairDescRel (findDuplicates ext (prepareFunctions ext files opts) opts) := by
      unfold findDuplicates
      exact List.Pairwise.sublist (List.take_sublist _ _) (List.sorted_insertionSort pairDescRel _)
    refine hs.imp ?_
    intro p q hpq
    simpa [pairToIssue_score] using hpq

/-- One exact-pass step preserves the dedup invariant: the recorded pair
keys are duplicate-free and all of them sit in the seen set. -/
theorem exactStep_inv (opts : DLOptions) (f1 f2 : FunctionWithMeta) (st : DLState)
    (h : (st.pairs.map dlKeyOf).Nodup ∧ ∀ p ∈ st.pairs, dlKeyOf p ∈ st.seenPairs) :
    ((exactStep opts f1 f2 st).pairs.map dlKeyOf).Nodup ∧
      ∀ p ∈ (exactStep opts f1 f2 st).pairs, dlKeyOf p ∈ (exactStep opts f1 f2 st).seenPairs := by
  unfold exactStep
  dsimp only
  split_ifs with h1 h2
  · exact h
  · exact h
  · constructor
    · rw [List.map_append]
      refine (List.Perm.nodup_iff (List.perm_append_singleton _ _)).mpr ?_
      refine List.nodup_cons.mpr ⟨?_, h.1⟩
      intro hmem
      rcases List.mem_map.mp hmem with ⟨p, hp, hkey⟩
      have hin := h.2 p hp
      rw [hkey] at hin
      exact h2 hin
    · intro p hp
      rcases List.mem_append.mp hp with hp | hp
      · exact List.mem_cons_of_mem _ (h.2 p hp)
      · rcases List.mem_singleton.mp hp with rfl
        exact List.mem_cons_self _ _

/-- The inner exact-pass loop preserves the dedup invariant. -/
theorem exactInner_inv (opts : DLOptions) (f1 : FunctionWithMeta) : ∀ (l : List FunctionWithMeta) (st : DLState),
    ((st.pairs.map dlKeyOf).Nodup ∧ ∀ p ∈ st.pairs, dlKeyOf p ∈ st.seenPairs) →
    (((exactInner opts f1 l st).pairs.map dlKeyOf).Nodup ∧
      ∀ p ∈ (exactInner opts f1 l st).pairs, dlKeyOf p ∈ (exactInner opts f1 l st).seenPairs) := by
  intro l
  induction l with
  | nil => intro st h; exact h
  | cons f2 rest ih => intro st h; exact ih _ (exactStep_inv opts f1 f2 st h)

/-- The group loop of the exact pass preserves the dedup invariant. -/
theorem exactGroupPairs_inv (opts : DLOptions) : ∀ (l : List FunctionWithMeta) (st : DLState),
    ((st.pairs.map dlKeyOf).Nodup ∧ ∀ p ∈ st.pairs, dlKeyOf p ∈ st.seenPairs) →
    (((exactGroupPairs opts l st).pairs.map dlKeyOf).Nodup ∧
      ∀ p ∈ (exactGroupPairs opts l st).pairs, dlKeyOf p ∈ (exactGroupPairs opts l st).seenPairs) := by
  intro l
  induction l with
  | nil => intro st h; exact h
  | cons f rest ih => intro st h; exact ih _ (exactInner_inv opts f rest st h)

/-- The exact pass establishes the dedup invariant from the empty state. -/
theorem exactPass_inv (opts : DLOptions) (functions : List FunctionWithMeta) :
    (((exactPass opts functions).pairs.map dlKeyOf).Nodup ∧
      ∀ p ∈ (exactPass opts functions).pairs, dlKeyOf p ∈ (exactPass opts functions).seenPairs) := by
  unfold exactPass
  generalize (firstDedup (functions.map (fun f => f.hash))).map
    (fun h => functions.filter (fun f => f.hash == h)) = groups
  have hstart : ((DLState.mk [] []).pairs.map dlKeyOf).Nodup ∧
      ∀ p ∈ (DLState.mk [] []).pairs, dlKeyOf p ∈ (DLState.mk [] []).seenPairs := by
    simp
  revert hstart
  generalize (DLState.mk [] []) = st0
  intro hstart
  induction groups generalizing st0 with
  | nil => exact hstart
  | cons g rest ih =>
    simp only [List.foldl_cons]
    apply ih
    by_cases hg : g.length < 2
    · rw [if_pos hg]; exact hstart
    · rw [if_neg hg]; exact exactGroupPairs_inv opts g st0 hstart

/-- One near-pass step preserves the dedup invariant. -/
theorem nearStep_inv (ext : DLExtern) (opts : DLOptions) (f1 f2 : FunctionWithMeta) (st : DLState)
    (h : (st.pairs.map dlKeyOf).Nodup ∧ ∀ p ∈ st.pairs, dlKeyOf p ∈ st.seenPairs) :
    (((nearStep ext opts f1 f2 st).pairs.map dlKeyOf).Nodup ∧
      ∀ p ∈ (nearStep ext opts f1 f2 st).pairs, dlKeyOf p ∈ (nearStep ext opts f1 f2 st).seenPairs) := by
  unfold nearStep
  dsimp only
  split_ifs with h1 h2 h3
  · exact h
  · exact h
  · constructor
    · rw [List.map_append]
      refine (List.Perm.nodup_iff (List.perm_append_singleton _ _)).mpr ?_
      refine List.nodup_cons.mpr ⟨?_, h.1⟩
      intro hmem
      rcases List.mem_map.mp hmem with ⟨p, hp, hkey⟩
      have hin := h.2 p hp
      rw [hkey] at hin
      exact h2 hin
    · intro p hp
      rcases List.mem_append.mp hp with hp | hp
      · exact List.mem_cons_of_mem _ (h.2 p hp)
      · rcases List.mem_singleton.mp hp with rfl
        exact List.mem_cons_self _ _
  · exact h

/-- The capped inner near-pass loop preserves the dedup invariant. -/
theorem nearInner_inv (ext : DLExtern) (opts : DLOptions) (f1 : FunctionWithMeta) : ∀ (l : List FunctionWithMeta) (st : DLState),
    ((st.pairs.map dlKeyOf).Nodup ∧ ∀ p ∈ st.pairs, dlKeyOf p ∈ st.seenPairs) →
    (((nearInner ext opts f1 l st).pairs.map dlKeyOf).Nodup ∧
      ∀ p ∈ (nearInner ext opts f1 l st).pairs, dlKeyOf p ∈ (nearInner ext opts f1 l st).seenPairs) := by
  intro l
  induction l with
  | nil => intro st h; exact h
  | cons f2 rest ih =>
    intro st h
    simp only [nearInner]
    split_ifs with hcap
    · exact h
    · exact ih _ (nearStep_inv ext opts f1 f2 st h)

/-- The capped outer near-pass loop preserves the dedup invariant. -/
theorem nearOuter_inv (ext : DLExtern) (opts : DLOptions) : ∀ (l : List FunctionWithMeta) (st : DLState),
    ((st.pairs.map dlKeyOf).Nodup ∧ ∀ p ∈ st.pairs, dlKeyOf p ∈ st.seenPairs) →
    (((nearOuter ext opts l st).pairs.map dlKeyOf).Nodup ∧
      ∀ p ∈ (nearOuter ext opts l st).pairs, dlKeyOf p ∈ (nearOuter ext opts l st).seenPairs) := by
  intro l
  induction l with
  | nil => intro st h; exact h
  | cons f rest ih =>
    intro st h
    simp only [nearOuter]
    split_ifs with hcap
    · exact h
    · exact ih _ (nearInner_inv ext opts f rest st h)

/-- The pair list findDuplicates returns carries duplicate-free pair keys. -/
theorem findDuplicates_keys_nodup (ext : DLExtern) (functions : List FunctionWithMeta) (opts : DLOptions) :
    ((findDuplicates ext functions opts).map dlKeyOf).Nodup := by
  unfold findDuplicates
  dsimp only
  have h1 := nearOuter_inv ext opts functions (exactPass opts functions) (exactPass_inv opts functions)
  have hperm : ((List.insertionSort pairDescRel (nearOuter ext opts functions (exactPass opts functions)).pairs).map dlKeyOf).Perm
      (((nearOuter ext opts functions (exactPass opts functions)).pairs).map dlKeyOf) :=
    (List.perm_insertionSort pairDescRel _).map dlKeyOf
  have h2 : ((List.insertionSort pairDescRel (nearOuter ext opts functions (exactPass opts functions)).pairs).map dlKeyOf).Nodup :=
    (List.Perm.nodup_iff hperm).mpr h1.1
  rw [List.map_take]
  exact List.Nodup.sublist (List.take_sublist _ _) h2

/-- C4: each unordered pair is compared and reported at most once per lint
pass.  The pair keys of all three linters are order-independent; the pair
list of every duplicate-logic run carries duplicate-free pair keys, so a
pair recorded by the exact pass is never re-reported by the near-duplicate
pass; and three functions with identical body hashes yield exactly three
reported pairs, each reported once. -/
theorem c4_pair_dedup :
    (∀ f1 f2 : FunctionWithMeta, dlPairKey f1 f2 = dlPairKey f2 f1)
    ∧ (∀ a b : FunctionInfo, sfPairKey a b = sfPairKey b a)
    ∧ (∀ a b : TypeInfo, stPairKey a b = stPairKey b a)
    ∧ (∀ (ext : DLExtern) (functions : List FunctionWithMeta) (opts : DLOptions),
        ((findDuplicates ext functions opts).map dlKeyOf).Nodup)
    ∧ (dlLint extId hashFiles {}).length = 3
    ∧ ((findDuplicates extId (prepareFunctions extId hashFiles {}) {}).map dlKeyOf).Nodup := by
  refine ⟨dlPairKey_symm, sfPairKey_symm, stPairKey_symm, findDuplicates_keys_nodup, ?_, ?_⟩
  · with_unfolding_all decide
  · with_unfolding_all decide

/-- A near-pass step never shrinks the pair list. -/
theorem nearStep_len_le (ext : DLExtern) (opts : DLOptions) (f1 f2 : FunctionWithMeta) (st : DLState) :
    st.pairs.length ≤ (nearStep ext opts f1 f2 st).pairs.length := by
  unfold nearStep
  dsimp only
  split_ifs <;> simp

/-- A near-pass step grows the pair list by at most one. -/
theorem nearStep_len_succ (ext : DLExtern) (opts : DLOptions) (f1 f2 : FunctionWithMeta) (st : DLState) :
    (nearStep ext opts f1 f2 st).pairs.length ≤ st.pairs.length + 1 := by
  unfold nearStep
  dsimp only
  split_ifs <;> simp

/-- The uncapped inner near pass never shrinks the pair list. -/
theorem nearInnerAll_len_le (ext : DLExtern) (opts : DLOptions) (f1 : FunctionWithMeta) : ∀ (l : List FunctionWithMeta) (st : DLState),
    st.pairs.length ≤ (nearInnerAll ext opts f1 l st).pairs.length := by
  intro l
  induction l with
  | nil => intro st; exact le_rfl
  | cons f2 rest ih =>
    intro st
    exact le_trans (nearStep_len_le ext opts f1 f2 st) (ih _)

/-- The uncapped outer near pass never shrinks the pair list. -/
theorem nearOuterAll_len_le (ext : DLExtern) (opts : DLOptions) : ∀ (l : List FunctionWithMeta) (st : DLState),
    st.pairs.length ≤ (nearOuterAll ext opts l st).pairs.length := by
  intro l
  induction l with
  | nil => intro st; exact le_rfl
  | cons f rest ih =>
    intro st
    exact le_trans (nearInnerAll_len_le ext opts f rest st) (ih _)

/-- While the uncapped inner scan stays below the cap, the capped inner scan
performs exactly the same steps. -/
theorem nearInner_eq_all (ext : DLExtern) (opts : DLOptions) (f1 : FunctionWithMeta) : ∀ (l : List FunctionWithMeta) (st : DLState),
    (nearInnerAll ext opts f1 l st).pairs.length < opts.maxPairs →
    nearInner ext opts f1 l st = nearInnerAll ext opts f1 l st := by
  intro l
  induction l with
  | nil => intro st _; rfl
  | cons f2 rest ih =>
    intro st h
    simp only [nearInnerAll] at h
    have hlt : st.pairs.length < opts.maxPairs :=
      lt_of_le_of_lt (le_trans (nearStep_len_le ext opts f1 f2 st) (nearInnerAll_len_le ext opts f1 rest _)) h
    simp only [nearInner, nearInnerAll]
    rw [if_neg (not_le.mpr hlt)]
    exact ih _ h

/-- Below the cap, the capped inner scan collects the smaller of the cap and
the uncapped pair count. -/
theorem nearInner_len_min (ext : DLExtern) (opts : DLOptions) (f1 : FunctionWithMeta) : ∀ (l : List FunctionWithMeta) (st : DLState),
    st.pairs.length ≤ opts.maxPairs →
    (nearInner ext opts f1 l st).pairs.length = min opts.maxPairs (nearInnerAll ext opts f1 l st).pairs.length := by
  intro l
  induction l with
  | nil =>
    intro st h
    exact (Nat.min_eq_right h).symm
  | cons f2 rest ih =>
    intro st h
    simp only [nearInner, nearInnerAll]
    by_cases hg : opts.maxPairs ≤ st.pairs.length
    · rw [if_pos hg]
      have hEq : st.pairs.length = opts.maxPairs := le_antisymm h hg
      have hle : opts.maxPairs ≤ (nearInnerAll ext opts f1 rest (nearStep ext opts f1 f2 st)).pairs.length := by
        rw [← hEq]
        exact le_trans (nearStep_len_le ext opts f1 f2 st) (nearInnerAll_len_le ext opts f1 rest _)
      rw [Nat.min_eq_left hle]
      exact hEq
    · rw [if_neg hg]
      have hstep : (nearStep ext opts f1 f2 st).pairs.length ≤ opts.maxPairs := by
        have := nearStep_len_succ ext opts f1 f2 st
        omega
      exact ih _ hstep

/-- Once the cap is reached, the capped outer scan stops immediately. -/
theorem nearOuter_stop (ext : DLExtern) (opts : DLOptions) : ∀ (l : List FunctionWithMeta) (st : DLState),
    opts.maxPairs ≤ st.pairs.length → nearOuter ext opts l st = st := by
  intro l
  cases l with
  | nil => intro st _; rfl
  | cons f rest =>
    intro st h
    simp only [nearOuter]
    rw [if_pos h]

/-- Below the cap, the capped outer scan collects the smaller of the cap and
the uncapped pair count. -/
theorem nearOuter_len_min (ext : DLExtern) (opts : DLOptions) : ∀ (l : List FunctionWithMeta) (st : DLState),
    st.pairs.length ≤ opts.maxPairs →
    (nearOuter ext opts l st).pairs.length = min opts.maxPairs (nearOuterAll ext opts l st).pairs.length := by
  intro l
  induction l with
  | nil =>
    intro st h
    exact (Nat.min_eq_right h).symm
  | cons f rest ih =>
    intro st h
    simp only [nearOuter, nearOuterAll]
    by_cases hg : opts.maxPairs ≤ st.pairs.length
    · rw [if_pos hg]
      have hEq : st.pairs.length = opts.maxPairs := le_antisymm h hg
      have hle : opts.maxPairs ≤ (nearOuterAll ext opts rest (nearInnerAll ext opts f rest st)).pairs.length := by
        rw [← hEq]
        exact le_trans (nearInnerAll_len_le ext opts f rest st) (nearOuterAll_len_le ext opts rest _)
      rw [Nat.min_eq_left hle]
      exact hEq
    · rw [if_neg hg]
      by_cases hi : (nearInnerAll ext opts f rest st).pairs.length < opts.maxPairs
      · rw [nearInner_eq_all ext opts f rest st hi]
        exact ih _ (le_of_lt hi)
      · push_neg at hi
        have hinner : (nearInner ext opts f rest st).pairs.length = opts.maxPairs := by
          rw [nearInner_len_min ext opts f rest st h]
          exact Nat.min_eq_left hi
        rw [nearOuter_stop ext opts rest _ (le_of_eq hinner.symm)]
        rw [hinner]
        have hout : opts.maxPairs ≤ (nearOuterAll ext opts rest (nearInnerAll ext opts f rest st)).pairs.length :=
          le_trans hi (nearOuterAll_len_le ext opts rest _)
        exact (Nat.min_eq_left hout).symm

/-- C5: whenever the uncapped near-duplicate scan would add more qualifying
pairs than maxPairs, the duplicate-logic linter returns exactly maxPairs
issues: the near-duplicate scan stops adding pairs at the cap and the pair
list is truncated to maxPairs after sorting. -/
theorem c5_cap_enforcement (ext : DLExtern) (files : List FileEntry) (opts : DLOptions)
    (h2 : 2 ≤ (prepareFunctions ext files opts).length)
    (hq : opts.maxPairs <
      (nearOuterAll ext opts (prepareFunctions ext files opts) (exactPass opts (prepareFunctions ext files opts))).pairs.length
        - (exactPass opts (prepareFunctions ext files opts)).pairs.length) :
    (dlLint ext files opts).length = opts.maxPairs := by
  simp only [dlLint]
  rw [if_neg (by omega), List.length_map]
  unfold findDuplicates
  dsimp only
  rw [List.length_take, List.length_insertionSort]
  by_cases hg : (exactPass opts (prepareFunctions ext files opts)).pairs.length ≤ opts.maxPairs
  · rw [nearOuter_len_min ext opts _ _ hg]
    have hN : opts.maxPairs <
        (nearOuterAll ext opts (prepareFunctions ext files opts) (exactPass opts (prepareFunctions ext files opts))).pairs.length := by
      omega
    omega
  · push_neg at hg
    rw [nearOuter_stop ext opts _ _ (le_of_lt hg)]
    omega

/-- C5 witness: four mutually near-duplicate functions with a cap of two
yield exactly two issues. -/
theorem c5_cap_enforcement_witness : (dlLint extId capFiles capOpts).length = capOpts.maxPairs :=
  c5_cap_enforcement extId capFiles capOpts (by with_unfolding_all decide) (by with_unfolding_all decide)

/-- Every issue a similar-functions pair step adds comes from checkPair on
that very pair. -/
theorem sfPairStep_issues (cmpIds : String → String → Rat) (fmtPct : Rat → String) (opts : SFOptions) (fA fB : FunctionInfo) (st : List String × List Issue) :
    ∀ iss ∈ (sfPairStep cmpIds fmtPct opts fA fB st).2, iss ∈ st.2 ∨ sfCheckPair cmpIds fmtPct opts fA fB = some iss := by
  unfold sfPairStep
  dsimp only
  split_ifs with h1 h2
  · intro iss h
    exact Or.inl h
  · intro iss h
    exact Or.inl h
  · cases hcp : sfCheckPair cmpIds fmtPct opts fA fB with
    | none =>
      intro iss h
      dsimp only at h
      exact Or.inl h
    | some i =>
      intro iss h
      dsimp only at h
      rcases List.mem_append.mp h with h | h
      · exact Or.inl h
      · rcases List.mem_singleton.mp h with rfl
        exact Or.inr rfl

/-- Every issue the inner similar-functions loop adds comes from checkPair
of the fixed entity against some member of the remaining list. -/
theorem sfInner_issues (cmpIds : String → String → Rat) (fmtPct : Rat → String) (opts : SFOptions) (fA : FunctionInfo) : ∀ (l : List FunctionInfo) (st : List String × List Issue),
    ∀ iss ∈ (sfInner cmpIds fmtPct opts fA l st).2, iss ∈ st.2 ∨ ∃ fB ∈ l, sfCheckPair cmpIds fmtPct opts fA fB = some iss := by
  intro l
  induction l with
  | nil => intro st iss h; exact Or.inl h
  | cons fB rest ih =>
    intro st iss h
    rcases ih _ iss h with h1 | ⟨b, hb, hcp⟩
    · rcases sfPairStep_issues cmpIds fmtPct opts fA fB st iss h1 with h2 | h2
      · exact Or.inl h2
      · exact Or.inr ⟨fB, List.mem_cons_self _ _, h2⟩
    · exact Or.inr ⟨b, List.mem_cons_of_mem _ hb, hcp⟩

/-- Every issue the similar-functions pair loop emits comes from checkPair
of two members of the candidate list. -/
theorem sfOuter_issues (cmpIds : String → String → Rat) (fmtPct : Rat → String) (opts : SFOptions) : ∀ (l : List FunctionInfo) (st : List String × List Issue),
    ∀ iss ∈ sfOuter cmpIds fmtPct opts l st, iss ∈ st.2 ∨ ∃ a ∈ l, ∃ b ∈ l, sfCheckPair cmpIds fmtPct opts a b = some iss := by
  intro l
  induction l with
  | nil => intro st iss h; exact Or.inl h
  | cons fA rest ih =>
    intro st iss h
    rcases ih _ iss h with h1 | ⟨a, ha, b, hb, hcp⟩
    · rcases sfInner_issues cmpIds fmtPct opts fA rest st iss h1 with h2 | ⟨b, hb, hcp⟩
      · exact Or.inl h2
      · exact Or.inr ⟨fA, List.mem_cons_self _ _, b, List.mem_cons_of_mem _ hb, hcp⟩
    · exact Or.inr ⟨a, List.mem_cons_of_mem _ ha, b, List.mem_cons_of_mem _ hb, hcp⟩

/-- An issue produced by checkPair carries the names of its two entities. -/
theorem sfCheckPair_some_names (cmpIds : String → String → Rat) (fmtPct : Rat → String) (opts : SFOptions) (a b : FunctionInfo) (iss : Issue) :
    sfCheckPair cmpIds fmtPct opts a b = some iss → iss.name1 = a.name ∧ iss.name2 = b.name := by
  unfold sfCheckPair sfSameNameIssue
  dsimp only
  split_ifs <;> intro h
  all_goals
    first
      | exact h.elim
      | (have h2 := Option.some.inj h
         exact ⟨by rw [← h2], by rw [← h2]⟩)

/-- A candidate surviving the similar-functions filter is not ignored. -/
theorem sfEligible_not_ignored (opts : SFOptions) (f : FunctionInfo) (h : sfEligible opts f = true) :
    shouldIgnore f.name opts.ignorePatterns opts.ignoreFunctions = false := by
  unfold sfEligible at h
  split_ifs at h with h1 h2 h3 h4
  · exact Bool.eq_false_iff.mpr h3

/-- The exact-pass step preserves any property of the recorded entities. -/
theorem exactStep_prop (Q : FunctionWithMeta → Prop) (opts : DLOptions) (f1 f2 : FunctionWithMeta) (st : DLState)
    (hf1 : Q f1) (hf2 : Q f2) (h : ∀ p ∈ st.pairs, Q p.func1 ∧ Q p.func2) :
    ∀ p ∈ (exactStep opts f1 f2 st).pairs, Q p.func1 ∧ Q p.func2 := by
  unfold exactStep
  dsimp only
  split_ifs with h1 h2
  · exact h
  · exact h
  · intro p hp
    rcases List.mem_append.mp hp with hp | hp
    · exact h p hp
    · rcases List.mem_singleton.mp hp with rfl
      exact ⟨hf1, hf2⟩

/-- The inner exact-pass loop preserves any property of the entities. -/
theorem exactInner_prop (Q : FunctionWithMeta → Prop) (opts : DLOptions) (f1 : FunctionWithMeta) : ∀ (l : List FunctionWithMeta) (st : DLState),
    Q f1 → (∀ f ∈ l, Q f) → (∀ p ∈ st.pairs, Q p.func1 ∧ Q p.func2) →
    ∀ p ∈ (exactInner opts f1 l st).pairs, Q p.func1 ∧ Q p.func2 := by
  intro l
  induction l with
  | nil => intro st _ _ h; exact h
  | cons f2 rest ih =>
    intro st hf1 hl h
    exact ih _ hf1 (fun f hf => hl f (List.mem_cons_of_mem _ hf))
      (exactStep_prop Q opts f1 f2 st hf1 (hl f2 (List.mem_cons_self _ _)) h)

/-- The group loop of the exact pass preserves any property of the
entities. -/
theorem exactGroupPairs_prop (Q : FunctionWithMeta → Prop) (opts : DLOptions) : ∀ (l : List FunctionWithMeta) (st : DLState),
    (∀ f ∈ l, Q f) → (∀ p ∈ st.pairs, Q p.func1 ∧ Q p.func2) →
    ∀ p ∈ (exactGroupPairs opts l st).pairs, Q p.func1 ∧ Q p.func2 := by
  intro l
  induction l with
  | nil => intro st _ h; exact h
  | cons f rest ih =>
    intro st hl h
    exact ih _ (fun g hg => hl g (List.mem_cons_of_mem _ hg))
      (exactInner_prop Q opts f rest st (hl f (List.mem_cons_self _ _))
        (fun g hg => hl g (List.mem_cons_of_mem _ hg)) h)

/-- The exact pass only records entities from the candidate list, stated
through an arbitrary property of the candidates. -/
theorem exactPass_prop (Q : FunctionWithMeta → Prop) (opts : DLOptions) (functions : List FunctionWithMeta)
    (hfns : ∀ f ∈ functions, Q f) :
    ∀ p ∈ (exactPass opts functions).pairs, Q p.func1 ∧ Q p.func2 := by
  unfold exactPass
  dsimp only
  have hgroups : ∀ g ∈ (firstDedup (functions.map (fun f => f.hash))).map
      (fun h => functions.filter (fun f => f.hash == h)), ∀ f ∈ g, Q f := by
    intro g hg f hf
    rcases List.mem_map.mp hg with ⟨hh, _, rfl⟩
    exact hfns f (List.mem_filter.mp hf).1
  revert hgroups
  generalize (firstDedup (functions.map (fun f => f.hash))).map
    (fun h => functions.filter (fun f => f.hash == h)) = groups
  intro hgroups
  have hstart : ∀ p ∈ (DLState.mk [] []).pairs, Q p.func1 ∧ Q p.func2 := by simp
  revert hstart
  generalize (DLState.mk [] []) = st0
  intro hstart
  induction groups generalizing st0 with
  | nil => exact hstart
  | cons g rest ih =>
    simp only [List.foldl_cons]
    refine ih (fun g2 hg2 => hgroups g2 (List.mem_cons_of_mem _ hg2)) _ ?_
    by_cases hg : g.length < 2
    · rw [if_pos hg]; exact hstart
    · rw [if_neg hg]
      exact exactGroupPairs_prop Q opts g st0 (hgroups g (List.mem_cons_self _ _)) hstart

/-- The near-pass step preserves any property of the recorded entities. -/
theorem nearStep_prop (Q : FunctionWithMeta → Prop) (ext : DLExtern) (opts : DLOptions) (f1 f2 : FunctionWithMeta) (st : DLState)
    (hf1 : Q f1) (hf2 : Q f2) (h : ∀ p ∈ st.pairs, Q p.func1 ∧ Q p.func2) :
    ∀ p ∈ (nearStep ext opts f1 f2 st).pairs, Q p.func1 ∧ Q p.func2 := by
  unfold nearStep
  dsimp only
  split_ifs with h1 h2 h3
  · exact h
  · exact h
  · intro p hp
    rcases List.mem_append.mp hp with hp | hp
    · exact h p hp
    · rcases List.mem_singleton.mp hp with rfl
      exact ⟨hf1, hf2⟩
  · exact h

/-- The capped inner near-pass loop preserves any property of the
entities. -/
theorem nearInner_prop (Q : FunctionWithMeta → Prop) (ext : DLExtern) (opts : DLOptions) (f1 : FunctionWithMeta) : ∀ (l : List FunctionWithMeta) (st : DLState),
    Q f1 → (∀ f ∈ l, Q f) → (∀ p ∈ st.pairs, Q p.func1 ∧ Q p.func2) →
    ∀ p ∈ (nearInner ext opts f1 l st).pairs, Q p.func1 ∧ Q p.func2 := by
  intro l
  induction l with
  | nil => intro st _ _ h; exact h
  | cons f2 rest ih =>
    intro st hf1 hl h
    simp only [nearInner]
    split_ifs with hcap
    · exact h
    · exact ih _ hf1 (fun f hf => hl f (List.mem_cons_of_mem _ hf))
        (nearStep_prop Q ext opts f1 f2 st hf1 (hl f2 (List.mem_cons_self _ _)) h)

/-- The capped outer near-pass loop preserves any property of the
entities. -/
theorem nearOuter_prop (Q : FunctionWithMeta → Prop) (ext : DLExtern) (opts : DLOptions) : ∀ (l : List FunctionWithMeta) (st : DLState),
    (∀ f ∈ l, Q f) → (∀ p ∈ st.pairs, Q p.func1 ∧ Q p.func2) →
    ∀ p ∈ (nearOuter ext opts l st).pairs, Q p.func1 ∧ Q p.func2 := by
  intro l
  induction l with
  | nil => intro st _ h; exact h
  | cons f rest ih =>
    intro st hl h
    simp only [nearOuter]
    split_ifs with hcap
    · exact h
    · exact ih _ (fun g hg => hl g (List.mem_cons_of_mem _ hg))
        (nearInner_prop Q ext opts f rest st (hl f (List.mem_cons_self _ _))
          (fun g hg => hl g (List.mem_cons_of_mem _ hg)) h)

/-- Every pair findDuplicates returns consists of candidate-list entities,
stated through an arbitrary property of the candidates. -/
theorem findDuplicates_prop (Q : FunctionWithMeta → Prop) (ext : DLExtern) (functions : List FunctionWithMeta) (opts : DLOptions)
    (hfns : ∀ f ∈ functions, Q f) :
    ∀ p ∈ findDuplicates ext functions opts, Q p.func1 ∧ Q p.func2 := by
  unfold findDuplicates
  dsimp only
  intro p hp
  have hp2 : p ∈ (nearOuter ext opts functions (exactPass opts functions)).pairs := by
    have hs : p ∈ List.insertionSort pairDescRel (nearOuter ext opts functions (exactPass opts functions)).pairs :=
      List.Sublist.mem hp (List.take_sublist _ _)
    exact (List.perm_insertionSort pairDescRel _).mem_iff.mp hs
  exact nearOuter_prop Q ext opts functions (exactPass opts functions) hfns
    (exactPass_prop Q opts functions hfns) p hp2

/-- Every prepared duplicate-logic candidate passed the shouldCheck
filter. -/
theorem prepareFunctions_shouldCheck (ext : DLExtern) (files : List FileEntry) (opts : DLOptions) :
    ∀ f ∈ prepareFunctions ext files opts, shouldCheckDL opts f.fn = true := by
  intro f hf
  unfold prepareFunctions at hf
  rcases List.mem_flatMap.mp hf with ⟨file, _, hmem⟩
  rcases List.mem_map.mp hmem with ⟨g, hg, rfl⟩
  exact (List.mem_filter.mp hg).2

/-- A duplicate-logic issue carries the names of the two entities of its
pair. -/
theorem pairToIssue_names (opts : DLOptions) (p : DuplicatePair) :
    (pairToIssue opts p).name1 = p.func1.fn.name ∧ (pairToIssue opts p).name2 = p.func2.fn.name := by
  unfold pairToIssue
  split_ifs <;> exact ⟨rfl, rfl⟩

/-- A name in the explicit ignore list or hit by an ignore pattern fails
the duplicate-logic shouldCheck filter. -/
theorem shouldCheckDL_name_false (opts : DLOptions) (f : FunctionInfo) (hne : f.name ≠ "")
    (hmem : f.name ∈ opts.ignoreFunctions ∨ ∃ q ∈ opts.ignoreFunctionPatterns, q f.name = true) :
    shouldCheckDL opts f = false := by
  unfold shouldCheckDL
  rcases hmem with hmem | ⟨q, hq, hqn⟩
  · rw [if_pos ⟨hne, hmem⟩]
  · by_cases h1 : f.name ≠ "" ∧ f.name ∈ opts.ignoreFunctions
    · rw [if_pos h1]
    · rw [if_neg h1, if_pos ⟨hne, List.any_eq_true.mpr ⟨q, hq, hqn⟩⟩]

/-- C8: exclusion by the explicit ignore list and exclusion by the ignore
patterns are independent, and an excluded entity appears in no reported
pair.  The first two conjuncts cover the shared shouldIgnore helper, the
next two the duplicate-logic shouldCheck filter, and the last two state
that no issue of a similar-functions or duplicate-logic run carries an
excluded name. -/
theorem c8_exemption_independence :
    (∀ (n : String) (patterns : List (String → Bool)) (explicitNames : List String),
        n ∈ explicitNames → shouldIgnore n patterns explicitNames = true)
    ∧ (∀ (n : String) (patterns : List (String → Bool)) (explicitNames : List String) (q : String → Bool),
        q ∈ patterns → q n = true → shouldIgnore n patterns explicitNames = true)
    ∧ (∀ (opts : DLOptions) (f : FunctionInfo), f.name ≠ "" → f.name ∈ opts.ignoreFunctions →
        shouldCheckDL opts f = false)
    ∧ (∀ (opts : DLOptions) (f : FunctionInfo) (q : String → Bool), f.name ≠ "" →
        q ∈ opts.ignoreFunctionPatterns → q f.name = true → shouldCheckDL opts f = false)
    ∧ (∀ (cmpIds : String → String → Rat) (fmtPct : Rat → String) (allFunctions : List FunctionInfo) (opts : SFOptions) (n : String),
        shouldIgnore n opts.ignorePatterns opts.ignoreFunctions = true →
        (sfLint cmpIds fmtPct allFunctions opts).all (fun i => decide (i.name1 ≠ n) && decide (i.name2 ≠ n)) = true)
    ∧ (∀ (ext : DLExtern) (files : List FileEntry) (opts : DLOptions) (n : String), n ≠ "" →
        (n ∈ opts.ignoreFunctions ∨ ∃ q ∈ opts.ignoreFunctionPatterns, q n = true) →
        (dlLint ext files opts).all (fun i => decide (i.name1 ≠ n) && decide (i.name2 ≠ n)) = true) := by
  refine ⟨?_, ?_, ?_, ?_, ?_, ?_⟩
  · intro n patterns explicitNames h
    unfold shouldIgnore
    rw [if_pos h]
  · intro n patterns explicitNames q hq hqn
    unfold shouldIgnore
    by_cases h : n ∈ explicitNames
    · rw [if_pos h]
    · rw [if_neg h]
      exact List.any_eq_true.mpr ⟨q, hq, hqn⟩
  · intro opts f hne hmem
    exact shouldCheckDL_name_false opts f hne (Or.inl hmem)
  · intro opts f q hne hq hqn
    exact shouldCheckDL_name_false opts f hne (Or.inr ⟨q, hq, hqn⟩)
  · intro cmpIds fmtPct allFunctions opts n hign
    rw [List.all_eq_true]
    intro i hi
    rcases sfOuter_issues cmpIds fmtPct opts _ _ i hi with h | ⟨a, ha, b, hb, hcp⟩
    · simp at h
    · have hnames := sfCheckPair_some_names cmpIds fmtPct opts a b i hcp
      have hna : a.name ≠ n := by
        intro hEq
        have := sfEligible_not_ignored opts a (List.mem_filter.mp ha).2
        rw [hEq, hign] at this
        cases this
      have hnb : b.name ≠ n := by
        intro hEq
        have := sfEligible_not_ignored opts b (List.mem_filter.mp hb).2
        rw [hEq, hign] at this
        cases this
      simp only [Bool.and_eq_true, decide_eq_true_eq]
      exact ⟨hnames.1 ▸ hna, hnames.2 ▸ hnb⟩
  · intro ext files opts n hne hmem
    rw [List.all_eq_true]
    intro i hi
    simp only [dlLint] at hi
    by_cases hlen : (prepareFunctions ext files opts).length < 2
    · rw [if_pos hlen] at hi
      simp at hi
    · rw [if_neg hlen] at hi
      rcases List.mem_map.mp hi with ⟨p, hp, rfl⟩
      have hq := findDuplicates_prop (fun f => shouldCheckDL opts f.fn = true) ext _ opts
        (prepareFunctions_shouldCheck ext files opts) p hp
      have hnames := pairToIssue_names opts p
      have hn1 : p.func1.fn.name ≠ n := by
        intro hEq
        have := shouldCheckDL_name_false opts p.func1.fn (hEq ▸ hne) (hEq ▸ hmem)
        rw [hq.1] at this
        cases this
      have hn2 : p.func2.fn.name ≠ n := by
        intro hEq
        have := shouldCheckDL_name_false opts p.func2.fn (hEq ▸ hne) (hEq ▸ hmem)
        rw [hq.2] at this
        cases this
      simp only [Bool.and_eq_true, decide_eq_true_eq]
      exact ⟨hnames.1 ▸ hn1, hnames.2 ▸ hn2⟩

/-- C8 witness: the explicit list excludes a name no pattern matches, a
default pattern excludes an unlisted name, and a concrete run with an
ignored name reports no pair naming it. -/
theorem c8_exemption_independence_witness :
    shouldIgnore "impactCond" [] ["impactCond"] = true
    ∧ shouldIgnore "handleClick" sfDefaultIgnorePatterns [] = true
    ∧ (sfLint cmpEq fmtNone [ordFnA, ordFnC] { ignoreFunctions := ["secretHelper"] }).all
        (fun i => decide (i.name1 ≠ "secretHelper") && decide (i.name2 ≠ "secretHelper")) = true
    ∧ (dlLint extId sameFileFiles { ignoreFunctions := ["secretHelper"] }).all
        (fun i => decide (i.name1 ≠ "secretHelper") && decide (i.name2 ≠ "secretHelper")) = true := by
  refine ⟨?_, ?_, ?_, ?_⟩
  · exact c8_exemption_independence.1 "impactCond" [] ["impactCond"] (by decide)
  · exact c8_exemption_independence.2.1 "handleClick" sfDefaultIgnorePatterns []
      (startsUpperAfter "handle") (List.mem_cons_self _ _) (by decide)
  · exact c8_exemption_independence.2.2.2.2.1 cmpEq fmtNone [ordFnA, ordFnC] _ "secretHelper" (by decide)
  · exact c8_exemption_independence.2.2.2.2.2 extId sameFileFiles _ "secretHelper" (by decide) (Or.inl (by decide))

/-- checkPair of similar-functions takes the same-name branch whenever the
names agree, regardless of the threshold options. -/
theorem sfCheckPair_same_name (cmpIds : String → String → Rat) (fmtPct : Rat → String) (opts : SFOptions) (fA fB : FunctionInfo) (h : fA.name = fB.name) :
    sfCheckPair cmpIds fmtPct opts fA fB = some (sfSameNameIssue cmpIds fA fB) := by
  unfold sfCheckPair
  dsimp only
  rw [if_pos h]

/-- checkPair of similar-types takes the same-name branch whenever the names
agree, regardless of the threshold options. -/
theorem stCheckPair_same_name (cmpIds : String → String → Rat) (fmtPct : Rat → String) (opts : STOptions) (tA tB : TypeInfo) (h : tA.name = tB.name) :
    stCheckPair cmpIds fmtPct opts tA tB = some (stSameNameIssue fmtPct tA tB) := by
  unfold stCheckPair
  dsimp only
  rw [if_pos h]

/-- A candidate surviving the similar-types filter has at least the minimum
field count. -/
theorem stEligible_minFields (opts : STOptions) (t : TypeInfo) (h : stEligible opts t = true) :
    opts.minFieldCount ≤ t.fields.length := by
  unfold stEligible at h
  split_ifs at h with h1 h2 h3 h4
  exact not_lt.mp h4

/-- The structural pass on exactly two types with equal names emits
nothing: the same-name skip fires. -/
theorem stStruct_two_same_name (cmpIds : String → String → Rat) (fmtPct : Rat → String) (opts : STOptions) (tA tB : TypeInfo)
    (hA : stEligible opts tA = true) (hB : stEligible opts tB = true) (hname : tA.name = tB.name) :
    stCheckFieldStructures cmpIds fmtPct opts [tA, tB] = [] := by
  unfold stCheckFieldStructures
  have hfa : decide (opts.minFieldCount ≤ tA.fields.length) = true := decide_eq_true (stEligible_minFields opts tA hA)
  have hfb : decide (opts.minFieldCount ≤ tB.fields.length) = true := decide_eq_true (stEligible_minFields opts tB hB)
  rw [show List.filter (fun t => decide (opts.minFieldCount ≤ t.fields.length)) [tA, tB] = [tA, tB] from by
    simp [List.filter_cons, hfa, hfb]]
  show (stStructStep cmpIds fmtPct opts tA tB ([], [])).2 = []
  unfold stStructStep
  rw [if_pos hname]

/-- C3: for a pair of eligible entities with identical names in different
files, the emitted issue is decided by the structural comparison alone:
parameter similarity exactly 1 yields duplicate-function and anything else
same-name-different-params; a combined field similarity above 0.9 yields
duplicate-type and anything else same-name-different-structure.  In all
four cases exactly one issue is emitted, and the threshold options are
never consulted (the statement quantifies over all option records). -/
theorem c3_same_name_branch :
    (∀ (cmpIds : String → String → Rat) (fmtPct : Rat → String) (opts : SFOptions) (fA fB : FunctionInfo),
        sfEligible opts fA = true → sfEligible opts fB = true →
        fA.name = fB.name → fA.location.file ≠ fB.location.file →
        (sfLint cmpIds fmtPct [fA, fB] opts).map (fun i => i.code) =
          [if compareParams cmpIds fA.params fB.params = 1
           then "similar-functions/duplicate-function"
           else "similar-functions/same-name-different-params"])
    ∧ (∀ (cmpIds : String → String → Rat) (fmtPct : Rat → String) (opts : STOptions) (tA tB : TypeInfo),
        stEligible opts tA = true → stEligible opts tB = true →
        tA.name = tB.name → tA.location.file ≠ tB.location.file →
        (stLint cmpIds fmtPct [tA, tB] opts).map (fun i => i.code) =
          [if 9/10 < (compareFields tA.fields tB.fields).combined
           then "duplicate-type" else "same-name-different-structure"]) := by
  constructor
  · intro cmpIds fmtPct opts fA fB hA hB hname hfile
    have hlint : sfLint cmpIds fmtPct [fA, fB] opts = (sfPairStep cmpIds fmtPct opts fA fB ([], [])).2 := by
      unfold sfLint
      rw [show List.filter (sfEligible opts) [fA, fB] = [fA, fB] from by simp [List.filter_cons, hA, hB]]
      rfl
    rw [hlint]
    unfold sfPairStep
    dsimp only
    rw [if_neg (List.not_mem_nil _), if_neg (fun hc => hfile hc.1),
      sfCheckPair_same_name cmpIds fmtPct opts fA fB hname]
    dsimp only
    unfold sfSameNameIssue
    dsimp only
    by_cases hpar : compareParams cmpIds fA.params fB.params = 1
    · rw [if_pos hpar, if_pos hpar]
      simp
    · rw [if_neg hpar, if_neg hpar]
      simp
  · intro cmpIds fmtPct opts tA tB hA hB hname hfile
    have hname2 : (stPairStep cmpIds fmtPct opts tA tB ([], [])).2 = [stSameNameIssue fmtPct tA tB] := by
      unfold stPairStep
      dsimp only
      rw [if_neg (List.not_mem_nil _), if_neg (fun hc => hfile hc.1),
        stCheckPair_same_name cmpIds fmtPct opts tA tB hname]
      simp
    have hlint : stLint cmpIds fmtPct [tA, tB] opts = [stSameNameIssue fmtPct tA tB] := by
      unfold stLint
      rw [show List.filter (stEligible opts) [tA, tB] = [tA, tB] from by simp [List.filter_cons, hA, hB]]
      dsimp only
      rw [stStruct_two_same_name cmpIds fmtPct opts tA tB hA hB hname]
      rw [show stOuter cmpIds fmtPct opts [tA, tB] ([], []) = (stPairStep cmpIds fmtPct opts tA tB ([], [])).2 from rfl]
      rw [hname2]
      by_cases hc : opts.checkFieldStructure = true
      · rw [if_pos hc, List.append_nil]
      · rw [if_neg hc]
    rw [hlint]
    unfold stSameNameIssue
    dsimp only
    by_cases hcomb : 9/10 < (compareFields tA.fields tB.fields).combined
    · rw [if_pos hcomb, if_pos hcomb]
      simp
    · rw [if_neg hcomb, if_neg hcomb]
      simp

/-- C3 witness: two eligible same-name functions with identical one-element
typed parameter lists in two files produce the duplicate-function issue,
and two eligible same-name types with identical fields in two files
produce the duplicate-type issue. -/
theorem c3_same_name_branch_witness :
    ((sfLint cmpEq fmtNone [valFn "src/x.ts" 1 [⟨"a", some "number"⟩], valFn "src/y.ts" 2 [⟨"a", some "number"⟩]] {}).map (fun i => i.code) =
      [if compareParams cmpEq (valFn "src/x.ts" 1 [⟨"a", some "number"⟩]).params (valFn "src/y.ts" 2 [⟨"a", some "number"⟩]).params = 1
       then "similar-functions/duplicate-function"
       else "similar-functions/same-name-different-params"])
    ∧ ((stLint cmpEq fmtNone [valTy "src/x.ts" 1 [⟨"a", "string"⟩, ⟨"b", "number"⟩], valTy "src/y.ts" 2 [⟨"a", "string"⟩, ⟨"b", "number"⟩]] {}).map (fun i => i.code) =
      [if 9/10 < (compareFields (valTy "src/x.ts" 1 [⟨"a", "string"⟩, ⟨"b", "number"⟩]).fields (valTy "src/y.ts" 2 [⟨"a", "string"⟩, ⟨"b", "number"⟩]).fields).combined
       then "duplicate-type" else "same-name-different-structure"]) := by
  constructor
  · exact c3_same_name_branch.1 cmpEq fmtNone {} _ _ (by with_unfolding_all decide)
      (by with_unfolding_all decide) (by decide) (by decide)
  · exact c3_same_name_branch.2 cmpEq fmtNone {} _ _ (by with_unfolding_all decide)
      (by with_unfolding_all decide) (by decide) (by decide)

/-- A needle occurring in the last of three concatenated strings occurs in
the concatenation. -/
theorem strHasSeg_concat3 (needle a b c : String) (h : hasSeg needle.data c.data = true) :
    strHasSeg needle (a ++ b ++ c) = true := by
  unfold strHasSeg
  simp only [String.data_append, List.append_assoc]
  exact hasSeg_append_left _ _ _ (hasSeg_append_left _ _ _ h)

/-- A needle occurring in the third of five concatenated strings occurs in
the concatenation. -/
theorem strHasSeg_concat5 (needle a b c d e : String) (h : hasSeg needle.data c.data = true) :
    strHasSeg needle (a ++ b ++ c ++ d ++ e) = true := by
  unfold strHasSeg
  simp only [String.data_append, List.append_assoc]
  exact hasSeg_append_left _ _ _ (hasSeg_append_left _ _ _ (hasSeg_append_right _ _ _ h))

/-- C9: two eligible entities with the identical name at different lines of
the same file are not skipped by the same-file rule (which requires
different names); the same-name branch still emits exactly one issue whose
code is decided by the structural comparison, and the issue message
asserts the entity exists in multiple files. -/
theorem c9_same_file_same_name :
    (∀ (cmpIds : String → String → Rat) (fmtPct : Rat → String) (opts : SFOptions) (fA fB : FunctionInfo),
        sfEligible opts fA = true → sfEligible opts fB = true →
        fA.name = fB.name → fA.location.file = fB.location.file →
        fA.location.line ≠ fB.location.line →
        (sfLint cmpIds fmtPct [fA, fB] opts).map (fun i => i.code) =
          [if compareParams cmpIds fA.params fB.params = 1
           then "similar-functions/duplicate-function"
           else "similar-functions/same-name-different-params"]
        ∧ (sfLint cmpIds fmtPct [fA, fB] opts).all
            (fun i => strHasSeg "exists in multiple files" i.message) = true)
    ∧ (∀ (cmpIds : String → String → Rat) (fmtPct : Rat → String) (opts : STOptions) (tA tB : TypeInfo),
        stEligible opts tA = true → stEligible opts tB = true →
        tA.name = tB.name → tA.location.file = tB.location.file →
        tA.location.line ≠ tB.location.line →
        (stLint cmpIds fmtPct [tA, tB] opts).map (fun i => i.code) =
          [if 9/10 < (compareFields tA.fields tB.fields).combined
           then "duplicate-type" else "same-name-different-structure"]
        ∧ (stLint cmpIds fmtPct [tA, tB] opts).all
            (fun i => strHasSeg "exists in multiple files" i.message) = true) := by
  constructor
  · intro cmpIds fmtPct opts fA fB hA hB hname hfile hline
    have hlint : sfLint cmpIds fmtPct [fA, fB] opts = [sfSameNameIssue cmpIds fA fB] := by
      unfold sfLint
      rw [show List.filter (sfEligible opts) [fA, fB] = [fA, fB] from by simp [List.filter_cons, hA, hB]]
      show (sfPairStep cmpIds fmtPct opts fA fB ([], [])).2 = _
      unfold sfPairStep
      dsimp only
      rw [if_neg (List.not_mem_nil _), if_neg (fun hc => hc.2 hname),
        sfCheckPair_same_name cmpIds fmtPct opts fA fB hname]
      simp
    rw [hlint]
    constructor
    · unfold sfSameNameIssue
      dsimp only
      by_cases hpar : compareParams cmpIds fA.params fB.params = 1
      · rw [if_pos hpar, if_pos hpar]
        simp
      · rw [if_neg hpar, if_neg hpar]
        simp
    · simp only [List.all_cons, List.all_nil, Bool.and_true]
      unfold sfSameNameIssue
      dsimp only
      by_cases hpar : compareParams cmpIds fA.params fB.params = 1
      · rw [if_pos hpar]
        exact strHasSeg_concat3 _ _ _ _ (by decide)
      · rw [if_neg hpar]
        exact strHasSeg_concat3 _ _ _ _ (by decide)
  · intro cmpIds fmtPct opts tA tB hA hB hname hfile hline
    have hlint : stLint cmpIds fmtPct [tA, tB] opts = [stSameNameIssue fmtPct tA tB] := by
      unfold stLint
      rw [show List.filter (stEligible opts) [tA, tB] = [tA, tB] from by simp [List.filter_cons, hA, hB]]
      dsimp only
      rw [stStruct_two_same_name cmpIds fmtPct opts tA tB hA hB hname]
      rw [show stOuter cmpIds fmtPct opts [tA, tB] ([], []) = (stPairStep cmpIds fmtPct opts tA tB ([], [])).2 from rfl]
      rw [show (stPairStep cmpIds fmtPct opts tA tB ([], [])).2 = [stSameNameIssue fmtPct tA tB] from by
        unfold stPairStep
        dsimp only
        rw [if_neg (List.not_mem_nil _), if_neg (fun hc => hc.2 hname),
          stCheckPair_same_name cmpIds fmtPct opts tA tB hname]
        simp]
      by_cases hc : opts.checkFieldStructure = true
      · rw [if_pos hc, List.append_nil]
      · rw [if_neg hc]
    rw [hlint]
    constructor
    · unfold stSameNameIssue
      dsimp only
      by_cases hcomb : 9/10 < (compareFields tA.fields tB.fields).combined
      · rw [if_pos hcomb, if_pos hcomb]
        simp
      · rw [if_neg hcomb, if_neg hcomb]
        simp
    · simp only [List.all_cons, List.all_nil, Bool.and_true]
      unfold stSameNameIssue
      dsimp only
      by_cases hcomb : 9/10 < (compareFields tA.fields tB.fields).combined
      · rw [if_pos hcomb]
        exact strHasSeg_concat5 _ _ _ _ _ _ (by decide)
      · rw [if_neg hcomb]
        exact strHasSeg_concat3 _ _ _ _ (by decide)

/-- C9 witness: two same-name functions at lines 1 and 9 of one file, and
two same-name types at lines 1 and 9 of one file, each yield one same-name
issue whose message mentions multiple files. -/
theorem c9_same_file_same_name_witness :
    ((sfLint cmpEq fmtNone [valFn "src/x.ts" 1 [], valFn "src/x.ts" 9 []] {}).map (fun i => i.code) =
      [if compareParams cmpEq (valFn "src/x.ts" 1 []).params (valFn "src/x.ts" 9 []).params = 1
       then "similar-functions/duplicate-function"
       else "similar-functions/same-name-different-params"]
      ∧ (sfLint cmpEq fmtNone [valFn "src/x.ts" 1 [], valFn "src/x.ts" 9 []] {}).all
          (fun i => strHasSeg "exists in multiple files" i.message) = true)
    ∧ ((stLint cmpEq fmtNone [valTy "src/x.ts" 1 [⟨"a", "string"⟩, ⟨"b", "number"⟩], valTy "src/x.ts" 9 [⟨"a", "string"⟩, ⟨"c", "number"⟩]] {}).map (fun i => i.code) =
      [if 9/10 < (compareFields (valTy "src/x.ts" 1 [⟨"a", "string"⟩, ⟨"b", "number"⟩]).fields (valTy "src/x.ts" 9 [⟨"a", "string"⟩, ⟨"c", "number"⟩]).fields).combined
       then "duplicate-type" else "same-name-different-structure"]
      ∧ (stLint cmpEq fmtNone [valTy "src/x.ts" 1 [⟨"a", "string"⟩, ⟨"b", "number"⟩], valTy "src/x.ts" 9 [⟨"a", "string"⟩, ⟨"c", "number"⟩]] {}).all
          (fun i => strHasSeg "exists in multiple files" i.message) = true) := by
  constructor
  · exact c9_same_file_same_name.1 cmpEq fmtNone {} _ _ (by with_unfolding_all decide)
      (by with_unfolding_all decide) (by decide) (by decide) (by decide)
  · exact c9_same_file_same_name.2 cmpEq fmtNone {} _ _ (by with_unfolding_all decide)
      (by with_unfolding_all decide) (by decide) (by decide) (by decide)

/-- checkPair of similar-types rejects a different-name pair below the
minimum similarity. -/
theorem stCheckPair_below_min (cmpIds : String → String → Rat) (fmtPct : Rat → String) (opts : STOptions) (tA tB : TypeInfo)
    (hname : tA.name ≠ tB.name) (hlt : cmpIds tA.name tB.name < opts.minSimilarity) :
    stCheckPair cmpIds fmtPct opts tA tB = none := by
  unfold stCheckPair
  dsimp only
  rw [if_neg hname, if_pos hlt]

/-- C10: with default options, a pair of eligible cross-file types with
different names whose identifier similarity lies strictly between 0.5 and
the default minimum similarity 0.7 never produces an issue, however
similar the field structures are: the name pass rejects the pair below the
minimum and the structural pass skips any pair whose name similarity
exceeds 0.5. -/
theorem c10_name_gap (cmpIds : String → String → Rat) (fmtPct : Rat → String) (tA tB : TypeInfo)
    (hA : stEligible {} tA = true) (hB : stEligible {} tB = true)
    (hname : tA.name ≠ tB.name) (hfile : tA.location.file ≠ tB.location.file)
    (hgt : 1/2 < cmpIds tA.name tB.name) (hlt : cmpIds tA.name tB.name < 7/10) :
    stLint cmpIds fmtPct [tA, tB] {} = [] := by
  unfold stLint
  rw [show List.filter (stEligible {}) [tA, tB] = [tA, tB] from by simp [List.filter_cons, hA, hB]]
  dsimp only
  have hstruct : stCheckFieldStructures cmpIds fmtPct {} [tA, tB] = [] := by
    unfold stCheckFieldStructures
    have hfa : decide (({} : STOptions).minFieldCount ≤ tA.fields.length) = true :=
      decide_eq_true (stEligible_minFields {} tA hA)
    have hfb : decide (({} : STOptions).minFieldCount ≤ tB.fields.length) = true :=
      decide_eq_true (stEligible_minFields {} tB hB)
    rw [show List.filter (fun t => decide (({} : STOptions).minFieldCount ≤ t.fields.length)) [tA, tB] = [tA, tB] from by
      simp [List.filter_cons, hfa, hfb]]
    show (stStructStep cmpIds fmtPct {} tA tB ([], [])).2 = []
    unfold stStructStep
    dsimp only
    rw [if_neg hname, if_pos hgt]
  have hnames : stOuter cmpIds fmtPct {} [tA, tB] ([], []) = [] := by
    show (stPairStep cmpIds fmtPct {} tA tB ([], [])).2 = []
    unfold stPairStep
    dsimp only
    rw [if_neg (List.not_mem_nil _), if_neg (fun hc => hfile hc.1),
      stCheckPair_below_min cmpIds fmtPct {} tA tB hname hlt]
  rw [hstruct, hnames]
  simp

/-- C10 witness: two identically structured two-field types whose names
score 0.6 produce no issue under default options. -/
theorem c10_name_gap_witness : stLint cmpGap fmtNone [gapTyA, gapTyB] {} = [] :=
  c10_name_gap cmpGap fmtNone gapTyA gapTyB (by with_unfolding_all decide)
    (by with_unfolding_all decide) (by decide) (by decide)
    (by with_unfolding_all decide) (by with_unfolding_all decide)

/-- On a single file with two functions passing the filters, prepare yields
the two candidates with their derived normalized bodies and hashes. -/
theorem prepareFunctions_two (ext : DLExtern) (path : String) (fA fB : FunctionInfo)
    (hpath : (dlDefaultIgnoreFilePatterns.any (fun q => q path)) = false)
    (hA : shouldCheckDL {} fA = true) (hB : shouldCheckDL {} fB = true) :
    prepareFunctions ext [⟨path, [fA, fB]⟩] {} =
      [⟨fA, strOrElse fA.normalizedBody (ext.normalizeCode fA.body),
          strOrElse fA.bodyHash (ext.hashCodeBody (strOrElse fA.normalizedBody (ext.normalizeCode fA.body)))⟩,
       ⟨fB, strOrElse fB.normalizedBody (ext.normalizeCode fB.body),
          strOrElse fB.bodyHash (ext.hashCodeBody (strOrElse fB.normalizedBody (ext.normalizeCode fB.body)))⟩] := by
  simp [prepareFunctions, List.filter_cons, hpath, hA, hB]

/-- The capped near pass over exactly two candidates from a state below the
cap is one near step. -/
theorem nearOuter_two (ext : DLExtern) (opts : DLOptions) (m1 m2 : FunctionWithMeta) (st : DLState)
    (h0 : ¬ opts.maxPairs ≤ st.pairs.length) :
    nearOuter ext opts [m1, m2] st = nearStep ext opts m1 m2 st := by
  simp only [nearOuter, nearInner]
  simp only [if_neg h0, ite_self]

/-- findDuplicates on two comparable candidates with distinct hashes and a
similarity at or above the default threshold returns exactly that pair. -/
theorem findDuplicates_two (ext : DLExtern) (m1 m2 : FunctionWithMeta)
    (hcmp : shouldCompareDL {} m1 m2 = true)
    (hhash : m1.hash ≠ m2.hash)
    (hsim : 17/20 ≤ (ext.compareCodeBodies m1.normalized m2.normalized).1) :
    findDuplicates ext [m1, m2] {} =
      [⟨m1, m2, (ext.compareCodeBodies m1.normalized m2.normalized).1,
        (ext.compareCodeBodies m1.normalized m2.normalized).2,
        decide (99/100 ≤ (ext.compareCodeBodies m1.normalized m2.normalized).1)⟩] := by
  have hexact : exactPass {} [m1, m2] = ⟨[], []⟩ := by
    unfold exactPass
    have h1 : firstDedup ([m1, m2].map (fun f => f.hash)) = [m1.hash, m2.hash] := by
      simp [firstDedup, firstDedupAux, Ne.symm hhash]
    rw [h1]
    simp [List.filter_cons, hhash, Ne.symm hhash]
  have hstep : nearStep ext {} m1 m2 ⟨[], []⟩ =
      ⟨[⟨m1, m2, (ext.compareCodeBodies m1.normalized m2.normalized).1,
        (ext.compareCodeBodies m1.normalized m2.normalized).2,
        decide (99/100 ≤ (ext.compareCodeBodies m1.normalized m2.normalized).1)⟩], [dlPairKey m1 m2]⟩ := by
    unfold nearStep
    rw [hcmp]
    dsimp only
    rw [if_neg (by decide), if_neg (List.not_mem_nil _), if_pos hsim]
    simp
  have houter : nearOuter ext {} [m1, m2] ⟨[], []⟩ = nearStep ext {} m1 m2 ⟨[], []⟩ :=
    nearOuter_two ext {} m1 m2 ⟨[], []⟩ (by decide)
  unfold findDuplicates
  dsimp only
  rw [hexact, houter, hstep]
  simp [List.insertionSort, List.orderedInsert, List.take_of_length_le]

/-- C2 counterexample: two eligible functions in one file with different
names whose normalized bodies score 0.9 (at or above the default 0.85
threshold, below exact) DO produce an issue under default options; the
claim asserts no issue is emitted for such a pair.  The conjuncts record
that the scenario satisfies every premise of the claim, and that the run
emits the similar-implementation issue for the pair.  The repository's own
test suite expects this behavior (the duplicate-logic test "functions in
same file with same body are detected"). -/
theorem c2_counterexample :
    shouldCheckDL {} sameFileFnA = true
    ∧ shouldCheckDL {} sameFileFnB = true
    ∧ sameFileFnA.location.file = sameFileFnB.location.file
    ∧ sameFileFnA.name ≠ sameFileFnB.name
    ∧ (17/20 : Rat) ≤ (extId.compareCodeBodies sameFileBodyA sameFileBodyB).1
    ∧ (extId.compareCodeBodies sameFileBodyA sameFileBodyB).1 < 99/100
    ∧ (dlLint extId sameFileFiles {}).map (fun i => (i.code, i.name1, i.name2)) =
        [("similar-implementation", "funcA", "funcB")] := by
  with_unfolding_all decide

/-- C2 amended: for every pair of eligible functions in the same file at
different lines with different names whose normalized bodies hash apart
and score at or above the default threshold but below exact, the
duplicate-logic linter with default options emits exactly one
similar-implementation issue for that pair (duplicate-logic has no
same-file skip; that skip exists only in similar-functions and
similar-types). -/
theorem c2_same_file_pair_reported (ext : DLExtern) (path : String) (fA fB : FunctionInfo)
    (hpath : (dlDefaultIgnoreFilePatterns.any (fun q => q path)) = false)
    (hA : shouldCheckDL {} fA = true) (hB : shouldCheckDL {} fB = true)
    (hline : fA.location.line ≠ fB.location.line)
    (hname : fA.name ≠ fB.name)
    (hhash : strOrElse fA.bodyHash (ext.hashCodeBody (strOrElse fA.normalizedBody (ext.normalizeCode fA.body))) ≠
             strOrElse fB.bodyHash (ext.hashCodeBody (strOrElse fB.normalizedBody (ext.normalizeCode fB.body))))
    (hsim : 17/20 ≤ (ext.compareCodeBodies (strOrElse fA.normalizedBody (ext.normalizeCode fA.body))
              (strOrElse fB.normalizedBody (ext.normalizeCode fB.body))).1)
    (hbelow : (ext.compareCodeBodies (strOrElse fA.normalizedBody (ext.normalizeCode fA.body))
              (strOrElse fB.normalizedBody (ext.normalizeCode fB.body))).1 < 99/100) :
    (dlLint ext [⟨path, [fA, fB]⟩] {}).map (fun i => (i.code, i.name1, i.name2)) =
      [("similar-implementation", fA.name, fB.name)] := by
  have hcmp : shouldCompareDL {}
      ⟨fA, strOrElse fA.normalizedBody (ext.normalizeCode fA.body),
        strOrElse fA.bodyHash (ext.hashCodeBody (strOrElse fA.normalizedBody (ext.normalizeCode fA.body)))⟩
      ⟨fB, strOrElse fB.normalizedBody (ext.normalizeCode fB.body),
        strOrElse fB.bodyHash (ext.hashCodeBody (strOrElse fB.normalizedBody (ext.normalizeCode fB.body)))⟩ = true := by
    unfold shouldCompareDL
    rw [if_neg (fun hc => hline hc.2),
      if_neg (by intro hc; exact absurd hc.1 (by decide)),
      if_neg (by intro hc; exact absurd hc.1 (by decide))]
  simp only [dlLint]
  rw [prepareFunctions_two ext path fA fB hpath hA hB]
  rw [if_neg (by simp)]
  rw [findDuplicates_two ext _ _ hcmp hhash hsim]
  have hfalse : ¬ ((decide ((99:Rat)/100 ≤ (ext.compareCodeBodies (strOrElse fA.normalizedBody (ext.normalizeCode fA.body))
      (strOrElse fB.normalizedBody (ext.normalizeCode fB.body))).1) : Bool) = true ∧ (({} : DLOptions).errorOnExact : Bool) = true) := by
    intro hc
    exact absurd (of_decide_eq_true hc.1) (not_le.mpr hbelow)
  simp only [List.map_cons, List.map_nil]
  unfold pairToIssue
  rw [if_neg hfalse]

/-- C2 amended witness: the concrete same-file scenario run through the
amended theorem. -/
theorem c2_same_file_pair_reported_witness :
    (dlLint extId [⟨"src/app.ts", [sameFileFnA, sameFileFnB]⟩] {}).map (fun i => (i.code, i.name1, i.name2)) =
      [("similar-implementation", sameFileFnA.name, sameFileFnB.name)] :=
  c2_same_file_pair_reported extId "src/app.ts" sameFileFnA sameFileFnB
    (by with_unfolding_all decide) (by with_unfolding_all decide) (by with_unfolding_all decide)
    (by decide) (by decide) (by with_unfolding_all decide)
    (by with_unfolding_all decide) (by with_unfolding_all decide)

end Viola
